import Mathlib

/-!
# Verification of the media-center playback orchestration engine

Shallow embedding of `kaeljune/media-center` (Python) in Lean 4, with theorems
settling the frozen claims about the specification.

Source files embedded:
- `src/mediacenter/modules/tts_engine.py`   (TTS cache, pause tokenizer, playback)
- `src/mediacenter/modules/youtube_player.py` (stream pipeline, stop protocol)
- `src/mediacenter/modules/audio_player.py` (queue state machine, sessions)
- `src/mediacenter/services/hc3_listener.py` (command dispatch)

Conventions: Python `asyncio` coroutines are embedded as state-transformer
functions over an explicit system state; each command is modelled as atomic up
to its first long suspension (the `await process.wait()` that lasts for the
duration of a track), matching the serialized command-flow model of the spec.
Pending coroutines suspended at such waits are recorded as `Waiter` values and
resumed by explicit scheduler steps, which models asyncio's delayed
exit-callback delivery.  Filesystem and network effects (`_find_song`,
`_load_playlist`, `random.shuffle`, yt-dlp invocations, md5) are parameters in
an `Env` record.
-/

namespace MediaCenter

/-! ## TTS pause-marker tokenizer (`tts_engine.py`, `_split_text_with_pause`, lines 165-180)

The Python code splits on the regex `(<pause\s+\d+>)` (keeping the delimiter
because of the capture group), strips each part, drops empty parts, turns parts
that start with `"<pause"` and prefix-match `<pause\s+(\d+)>` into
`("pause", int)` tokens and every other nonempty part into `("text", part)`
tokens.  We implement the same scan over `List Char`: the regex
`<pause\s+\d+>` is literal except for `\s+`/`\d+`, and since whitespace,
digits and `>` are pairwise disjoint the greedy match is deterministic, so a
single left-to-right scan reproduces `re.split` exactly. -/

/-- Python's ASCII `\s` class: the whitespace characters `re` matches. -/
def isPySpace (c : Char) : Bool :=
  c = ' ' ∨ c = '\t' ∨ c = '\n' ∨ c = '\r' ∨ c = '\x0b' ∨ c = '\x0c'

/-- Python's `\d` class restricted to ASCII digits. -/
def isPyDigit (c : Char) : Bool := '0' ≤ c ∧ c ≤ '9'

/-- Value of a digit string, as computed by Python's `int`. -/
def digitsVal (ds : List Char) : Nat :=
  ds.foldl (fun a c => a * 10 + (c.toNat - '0'.toNat)) 0

/-- Match the regex `<pause\s+\d+>` at the head of `l`.  On success returns
`(consumed marker characters, parsed number, remaining input)`.  Mirrors
`re.match(r'<pause\s+(\d+)>', ...)` at a fixed position: after the literal
`<pause` there must be one-or-more whitespace, one-or-more digits, then `>`. -/
def matchPauseMarker : List Char → Option (List Char × Nat × List Char)
  | '<' :: 'p' :: 'a' :: 'u' :: 's' :: 'e' :: rest =>
    let ws := rest.takeWhile isPySpace
    let rest1 := rest.dropWhile isPySpace
    if ws.isEmpty then none
    else
      let ds := rest1.takeWhile isPyDigit
      let rest2 := rest1.dropWhile isPyDigit
      if ds.isEmpty then none
      else
        match rest2 with
        | '>' :: rest3 =>
          some ('<' :: 'p' :: 'a' :: 'u' :: 's' :: 'e' :: (ws ++ ds ++ ['>']), digitsVal ds, rest3)
        | _ => none
  | _ => none

/-- The splitting pass of `re.split(r'(<pause\s+\d+>)', text)`: scan left to
right; at the leftmost position where the marker matches, cut the accumulated
text as one part, emit the marker as its own part (capture group), continue
after it.  `fuel` bounds the recursion by the input length. -/
def reSplitPause : Nat → List Char → List Char → List (List Char)
  | 0, acc, rest => [acc.reverse ++ rest]
  | _ + 1, acc, [] => [acc.reverse]
  | fuel + 1, acc, c :: cs =>
    match matchPauseMarker (c :: cs) with
    | some (marker, _, rest) => acc.reverse :: marker :: reSplitPause fuel [] rest
    | none => reSplitPause fuel (c :: acc) cs

/-- Python `str.strip()` on the ASCII whitespace class. -/
def pyStrip (l : List Char) : List Char :=
  ((l.dropWhile isPySpace).reverse.dropWhile isPySpace).reverse

/-- A token produced by the tokenizer: either `("text", segment)` or
`("pause", milliseconds)`. -/
inductive TTSToken where
  | text (s : String)
  | pause (ms : Nat)
deriving DecidableEq, Repr

/-- The per-part processing loop of `_split_text_with_pause` (lines 169-179):
strip, skip empties, parse parts starting with `"<pause"` as pause tokens
(dropping them if the prefix match fails), keep the rest as text tokens. -/
def processParts : List (List Char) → List TTSToken
  | [] => []
  | part :: rest =>
    let p := pyStrip part
    if p.isEmpty then processParts rest
    else
      match p with
      | '<' :: 'p' :: 'a' :: 'u' :: 's' :: 'e' :: _ =>
        match matchPauseMarker p with
        | some (_, n, _) => TTSToken.pause n :: processParts rest
        | none => processParts rest
      | _ => TTSToken.text (String.mk p) :: processParts rest

/-- `TTSEngine._split_text_with_pause` (lines 165-180), end to end, over char
lists. -/
def splitTextWithPauseL (l : List Char) : List TTSToken :=
  processParts (reSplitPause (l.length + 1) [] l)

/-- `TTSEngine._split_text_with_pause` on strings. -/
def split_text_with_pause (s : String) : List TTSToken :=
  splitTextWithPauseL s.data

/-! ## TTS cache (`tts_engine.py`, `speak` lines 54-85, `_generate_cache_key`
lines 113-116)

The cache directory is modelled as the set of keys whose `.wav` artifact
exists; `renders` counts invocations of `_generate_tts` (the render function).
The md5 hash is a parameter (`hash`), and the Python f-string
`f"{text}_{voice}_{speed}"` is modelled with `speed` given by its rendered
string. -/

/-- State of the TTS cache directory plus a render-invocation counter. -/
structure TTSState where
  cache : List String
  renders : Nat
deriving DecidableEq, Repr

/-- The default voice (`TTSEngine.__init__` default argument). -/
def defaultVoice : String := "default"

/-- `_generate_cache_key` (lines 113-116): hash of `f"{text}_{voice}_{speed}"`. -/
def generate_cache_key (hash : String → String) (text voice speed : String) : String :=
  hash (text ++ "_" ++ voice ++ "_" ++ speed)

/-- `TTSEngine.speak` (lines 54-85): empty text fails; missing/empty voice is
replaced by the default; on a cache hit the cached file is played without
rendering; on a miss `_generate_tts` is invoked (counted in `renders`) and on
success stores the artifact under the same key and plays it.  Returns the path
(modelled by its key) of the file played, or `none` on failure. -/
def speak (hash : String → String) (renderOk : Bool) (text : String)
    (voice : Option String) (speed : String) (st : TTSState) :
    Option String × TTSState :=
  if text = "" ∨ (pyStrip text.data).isEmpty then (none, st)
  else
    let v := match voice with
      | none => defaultVoice
      | some w => if w = "" then defaultVoice else w
    let key := generate_cache_key hash text v speed
    if key ∈ st.cache then (some key, st)
    else if renderOk then (some key, ⟨key :: st.cache, st.renders + 1⟩)
    else (none, ⟨st.cache, st.renders + 1⟩)

/-! ## Stream-pipeline stop protocol (`youtube_player.py`, `stop` lines 288-300,
`play_youtube_url` lines 40-57)

`play_youtube_url` builds a pipeline of two processes: a `yt-dlp` fetcher
(local variable `yt_process`) piped into an `mpg123`/`mpv` decoder stored in
`self.current_process`.  `stop` operates on `self.current_process` only:
graceful `terminate()`, a 1-second grace sleep, `kill()` if `poll()` still
reports the process alive, then clears the handle.  This fine-grained model
records the signalling actions `stop` performs so that teardown order and
escalation can be stated. -/

/-- Which pipeline process an action targets. -/
inductive PipeTarget where
  | decoder
  | fetcher
deriving DecidableEq, Repr

/-- A teardown action performed by `YouTubePlayer.stop`. -/
inductive StopAct where
  | terminate (t : PipeTarget)
  | graceWait
  | kill (t : PipeTarget)
deriving DecidableEq, Repr

/-- Pipeline process state for the fine-grained stop model.  `handleSet`
models `self.current_process is not None` (the handle points at the decoder);
`decoderStubborn` models a decoder that survives SIGTERM until the grace wait
expires and must be killed. -/
structure PipelineState where
  fetcherAlive : Bool
  decoderAlive : Bool
  handleSet : Bool
  decoderStubborn : Bool
deriving DecidableEq, Repr

/-- `YouTubePlayer.stop` (lines 288-300) over a live pipeline, together with
the list of teardown actions it performs, in order.  If the handle is unset
the body is skipped entirely.  Otherwise: `terminate()` the decoder (ends it
unless stubborn), `await asyncio.sleep(1)` (the grace wait), `kill()` only if
`poll()` is still `None`, then `current_process = None`.  The fetcher
(`yt_process`, a local of `play_youtube_url`) is never touched. -/
def youtube_stop_fine (st : PipelineState) : PipelineState × List StopAct :=
  if st.handleSet then
    let afterTerm := st.decoderAlive && st.decoderStubborn
    let acts := [StopAct.terminate PipeTarget.decoder, StopAct.graceWait]
      ++ (if afterTerm then [StopAct.kill PipeTarget.decoder] else [])
    ({ st with decoderAlive := false, handleSet := false }, acts)
  else (st, [])

/-! ## URL validators (`youtube_player.py`, lines 302-319)

All regex patterns are literal strings once the escapes are removed, except
`youtube\.com/watch\?.*list=`, which asks for an occurrence of
`youtube.com/watch?` followed (anywhere later) by `list=`.  `re.search`
semantics is substring containment, implemented here directly. -/

/-- Whether `p` is a prefix of `l` (character-wise). -/
def startsWithL : List Char → List Char → Bool
  | [], _ => true
  | _ :: _, [] => false
  | p :: ps, c :: cs => p = c && startsWithL ps cs

/-- Whether `pat` occurs as a contiguous substring of `l`. -/
def containsSub (pat : List Char) : List Char → Bool
  | [] => pat.isEmpty
  | c :: cs => startsWithL pat (c :: cs) || containsSub pat cs

/-- The remainder of `l` after the first occurrence of `pat`, if any. -/
def afterFirst (pat : List Char) : List Char → Option (List Char)
  | [] => if pat.isEmpty then some [] else none
  | c :: cs =>
    if startsWithL pat (c :: cs) then some ((c :: cs).drop pat.length)
    else afterFirst pat cs

/-- `pat1` occurs in `l` with an occurrence of `pat2` somewhere after it
(the `.*` regex between the two literals). -/
def containsSubThen (pat1 pat2 l : List Char) : Bool :=
  match afterFirst pat1 l with
  | some rest => containsSub pat2 rest
  | none => false

/-- `YouTubePlayer._is_valid_youtube_url` (lines 302-310). -/
def is_valid_youtube_url (url : String) : Bool :=
  containsSub "youtube.com/watch?v=".data url.data ||
  containsSub "youtu.be/".data url.data ||
  containsSub "youtube.com/embed/".data url.data ||
  containsSub "music.youtube.com/watch?v=".data url.data

/-- `YouTubePlayer._is_valid_youtube_playlist_url` (lines 312-319). -/
def is_valid_youtube_playlist_url (url : String) : Bool :=
  containsSub "youtube.com/playlist?list=".data url.data ||
  containsSubThen "youtube.com/watch?".data "list=".data url.data ||
  containsSub "music.youtube.com/playlist?list=".data url.data

/-! ## System state

The scheduler-level state: the pool of spawned external processes (`procs`,
pid is the list index, the Bool is liveness), the process handles held by the
three players, the `AudioPlayer` queue fields, the TTS cache state, and the
list of suspended coroutines (`tasks`).  The external world (filesystem,
yt-dlp, md5, `random.shuffle`, the `AUDIO_OUTPUT` environment variable) is an
`Env` parameter. -/

/-- External-world parameters. -/
structure Env where
  /-- `AudioPlayer._find_song`: whether a name resolves to a playable file. -/
  resolve : String → Bool
  /-- `AudioPlayer._load_playlist`: songs of a named playlist
  (missing or malformed definitions yield `[]`). -/
  playlists : String → List String
  /-- The permutation `random.shuffle` applies at playlist load. -/
  shuf : List String → List String
  /-- Whether `AUDIO_OUTPUT=host` is set (macOS host path). -/
  audioHost : Bool
  /-- Result of the `ytsearch1:` probe: a media URL, if found. -/
  searchResult : String → Option String
  /-- Result of listing a YouTube playlist: its video URLs, or `none` when
  the listing subprocess fails. -/
  ytVideos : String → Option (List String)
  /-- The md5 hex digest function used for cache keys. -/
  hash : String → String
  /-- Whether `_generate_tts` succeeds. -/
  renderOk : Bool

/-- A coroutine suspended at an `await wait()` boundary. -/
inductive Waiter where
  /-- `_play_file` (audio_player.py line 234) waiting for the local decoder. -/
  | waitLocal (pid : Nat)
  /-- `play_youtube_url` (youtube_player.py line 56/84) waiting for the
  pipeline decoder; still has to wait for the fetcher afterwards. -/
  | waitYtDec (dec fetch : Nat)
  /-- `play_youtube_url` (line 57/85) waiting for the fetcher; on resumption
  the surrounding `AudioPlayer.play_youtube_*` sets `is_playing = True`. -/
  | waitYtFetch (fetch : Nat)
  /-- `TTSEngine._play_audio` (line 266) waiting for the TTS output process. -/
  | waitTts (pid : Nat)
deriving DecidableEq, Repr

/-- The whole system state. -/
structure Sys where
  /-- Spawned external processes; index = pid, value = still running. -/
  procs : List Bool
  /-- `AudioPlayer.current_process`. -/
  localProc : Option Nat
  /-- `YouTubePlayer.current_process` (the pipeline decoder). -/
  ytProc : Option Nat
  /-- The `yt_process` fetcher of the most recent pipeline (a local variable
  in the source; tracked here to reason about its liveness). -/
  ytFetch : Option Nat
  /-- `TTSEngine.current_process`. -/
  ttsProc : Option Nat
  /-- `AudioPlayer.current_playlist`. -/
  playlist : List String
  /-- `AudioPlayer.current_index`. -/
  index : Nat
  /-- `AudioPlayer.is_playing`. -/
  isPlaying : Bool
  /-- `YouTubePlayer.is_playing`. -/
  ytPlaying : Bool
  /-- `AudioPlayer.volume`. -/
  volume : Int
  /-- `AudioPlayer.repeat_mode`. -/
  repeatMode : Bool
  /-- `AudioPlayer.shuffle_mode`. -/
  shuffleMode : Bool
  /-- TTS cache directory state. -/
  tts : TTSState
  /-- Suspended coroutines. -/
  tasks : List Waiter
deriving DecidableEq, Repr

/-- Whether process `pid` is currently running. -/
def procAlive (st : Sys) (pid : Nat) : Bool := st.procs.getD pid false

/-- Initial state: fresh `AudioPlayer`/`YouTubePlayer`/`TTSEngine`
(constructor field values from the three `__init__` methods). -/
def sysInit : Sys :=
  { procs := [], localProc := none, ytProc := none, ytFetch := none
    ttsProc := none, playlist := [], index := 0, isPlaying := false
    ytPlaying := false, volume := 50, repeatMode := false
    shuffleMode := false, tts := ⟨[], 0⟩, tasks := [] }

namespace YouTubePlayer

/-- `YouTubePlayer.stop` (lines 288-300), coarse model: the grace-then-kill
escalation on `current_process` is collapsed into the process ending; the
handle is cleared and `is_playing` reset.  If the handle is unset nothing
happens (the `is_playing` flag is untouched in that case: the assignment is
inside the `if`).  The pipeline fetcher is not touched (see
`youtube_stop_fine`). -/
def stop (st : Sys) : Sys :=
  match st.ytProc with
  | some pid =>
    { st with procs := st.procs.set pid false, ytProc := none, ytPlaying := false }
  | none => st

/-- The spawning part of `play_youtube_url` (lines 29-56 / 59-85): start the
yt-dlp fetcher, then the decoder with its stdin piped from the fetcher, set
`current_process` and `is_playing`, then suspend awaiting the decoder. -/
def spawnPair (st : Sys) : Sys :=
  let f := st.procs.length
  let d := st.procs.length + 1
  { st with procs := st.procs ++ [true, true], ytFetch := some f
            ytProc := some d, ytPlaying := true
            tasks := st.tasks ++ [Waiter.waitYtDec d f] }

/-- `YouTubePlayer.play_youtube_url` (lines 20-92) up to its first suspension.
Result `(some b, st)` means the coroutine returned `b` without suspending;
`(none, st)` means it spawned the pipeline and suspended awaiting the decoder
(its eventual result is `True`, delivered when the fetcher wait resumes). -/
def play_youtube_url (url : String) (st : Sys) : Option Bool × Sys :=
  if is_valid_youtube_url url = false then (some false, st)
  else (none, spawnPair (stop st))

/-- `YouTubePlayer.search_and_play` (lines 94-106): on the macOS-host path it
writes request files and returns `True` immediately; otherwise it runs the
`ytsearch1:` probe and, if a result is found, plays it via
`play_youtube_url`. -/
def search_and_play (env : Env) (query : String) (st : Sys) : Option Bool × Sys :=
  if env.audioHost then (some true, st)
  else
    match env.searchResult query with
    | none => (some false, st)
    | some url => play_youtube_url url st

/-- The video loop of `play_youtube_playlist` (lines 219-224): before each
video the loop breaks if `self.is_playing` is false.  Note that every caller
reaches this loop with `is_playing = False` (the preceding stops reset it), so
from reachable states the loop plays nothing; the recursive case compresses
the per-video awaits into one step. -/
def playlistLoop : List String → Sys → Sys
  | [], st => st
  | v :: rest, st =>
    if st.ytPlaying = false then st
    else playlistLoop rest (play_youtube_url v st).2

/-- `YouTubePlayer.play_youtube_playlist` (lines 178-233): validate the
playlist URL, list its videos (a yt-dlp subprocess; failure yields `False`),
then run the video loop and return `True`. -/
def play_youtube_playlist (env : Env) (url : String) (st : Sys) : Option Bool × Sys :=
  if is_valid_youtube_playlist_url url = false then (some false, st)
  else
    match env.ytVideos url with
    | none => (some false, st)
    | some vids => (some true, playlistLoop vids st)

end YouTubePlayer

namespace AudioPlayer

/-- `AudioPlayer.stop` (lines 106-123): tear down the local decoder (grace-
then-kill collapsed, handle cleared, `is_playing` reset), then
`youtube_player.stop()`, then `self.is_playing = False` unconditionally. -/
def stop (st : Sys) : Sys :=
  let st1 := match st.localProc with
    | some pid =>
      { st with procs := st.procs.set pid false, localProc := none, isPlaying := false }
    | none => st
  let st2 := YouTubePlayer.stop st1
  { st2 with isPlaying := false }

/-- The spawning part of `_play_file` (lines 226-231): start the decoder for
the resolved file, set `is_playing = True`, and suspend at
`await self.current_process.wait()` (line 234), recorded as a `Waiter`. -/
def spawnLocalFile (st : Sys) : Sys :=
  let pid := st.procs.length
  { st with procs := st.procs ++ [true], localProc := some pid
            isPlaying := true, tasks := st.tasks ++ [Waiter.waitLocal pid] }

/-- `_play_current_song` (lines 244-257) with `next_song` (lines 145-149)
inlined in the song-not-found branch (where the playlist is known non-empty,
so `next_song`'s guard passes).  `fuel` bounds the skip recursion, which the
source leaves unbounded: a state where the fuel runs out corresponds to the
source recursing without limit. -/
def playCurrentSongF (env : Env) : Nat → Sys → Sys
  | fuel, st =>
    if st.playlist = [] ∨ st.playlist.length ≤ st.index then st
    else if env.resolve (st.playlist.getD st.index "") then
      spawnLocalFile (stop st)
    else
      match fuel with
      | 0 => st
      | fuel' + 1 =>
        playCurrentSongF env fuel'
          { st with index := (st.index + 1) % st.playlist.length }

/-- `_play_current_song` with the fuel instantiated to the playlist length
(enough for one full wrap of skip attempts). -/
def play_current_song (env : Env) (st : Sys) : Sys :=
  playCurrentSongF env st.playlist.length st

/-- `AudioPlayer.next_song` (lines 145-149): on a non-empty playlist advance
the index by `(index + 1) % length` and replay; no-op otherwise. -/
def next_song (env : Env) (st : Sys) : Sys :=
  if st.playlist = [] then st
  else
    playCurrentSongF env st.playlist.length
      { st with index := (st.index + 1) % st.playlist.length }

/-- `AudioPlayer.previous_song` (lines 151-155): on a non-empty playlist move
the index by Python's floor-mod `(index - 1) % length` and replay; no-op
otherwise. -/
def previous_song (env : Env) (st : Sys) : Sys :=
  if st.playlist = [] then st
  else
    playCurrentSongF env st.playlist.length
      { st with index := (((st.index : Int) - 1) % (st.playlist.length : Int)).toNat }

/-- `_handle_song_finished` (lines 259-274): the natural-end transition of
the queue. -/
def handle_song_finished (env : Env) (st : Sys) : Sys :=
  if st.repeatMode = true ∧ st.playlist.length = 1 then
    play_current_song env st
  else if st.index < st.playlist.length - 1 then
    next_song env st
  else if st.repeatMode = true then
    play_current_song env { st with index := 0 }
  else
    { st with isPlaying := false }

/-- `AudioPlayer.play_song` (lines 28-43): resolve the name first; on failure
return `False` with no state change; on success stop everything and start the
file. -/
def play_song (env : Env) (name : String) (st : Sys) : Bool × Sys :=
  if env.resolve name then (true, spawnLocalFile (stop st))
  else (false, st)

/-- `AudioPlayer.play_playlist` (lines 45-65): load the definition first; a
missing or empty playlist returns `False` with no state change; otherwise
install it at index 0 (shuffled when shuffle mode is on) and play the current
song. -/
def play_playlist (env : Env) (name : String) (st : Sys) : Bool × Sys :=
  let pl := env.playlists name
  if pl = [] then (false, st)
  else
    let pl' := if st.shuffleMode then env.shuf pl else pl
    (true, play_current_song env { st with playlist := pl', index := 0 })

/-- The `if success: self.is_playing = True` epilogue shared by the three
`AudioPlayer.play_youtube_*` wrappers.  A suspended pipeline (`none`) delivers
its success, and this flag, when the fetcher wait resumes. -/
def applyYtResult : Option Bool × Sys → Bool × Sys
  | (some true, st) => (true, { st with isPlaying := true })
  | (some false, st) => (false, st)
  | (none, st) => (true, st)

/-- `AudioPlayer.play_youtube_url` (lines 80-91): full stop, then delegate. -/
def play_youtube_url (url : String) (st : Sys) : Bool × Sys :=
  applyYtResult (YouTubePlayer.play_youtube_url url (stop st))

/-- `AudioPlayer.play_youtube_search` (lines 67-78): full stop, then search
and play. -/
def play_youtube_search (env : Env) (query : String) (st : Sys) : Bool × Sys :=
  applyYtResult (YouTubePlayer.search_and_play env query (stop st))

/-- `AudioPlayer.play_youtube_playlist` (lines 93-104): full stop, then
delegate. -/
def play_youtube_playlist (env : Env) (url : String) (st : Sys) : Bool × Sys :=
  applyYtResult (YouTubePlayer.play_youtube_playlist env url (stop st))

/-- `AudioPlayer.set_volume` (lines 157-160): clamp to `[0, 100]`. -/
def set_volume (v : Int) (st : Sys) : Sys :=
  { st with volume := max 0 (min 100 v) }

/-- `AudioPlayer.pause` (lines 125-133): SIGSTOP the local decoder when one is
tracked and playing; the process stays alive. -/
def pause (st : Sys) : Sys :=
  if st.localProc ≠ none ∧ st.isPlaying = true then { st with isPlaying := false }
  else st

/-- `AudioPlayer.resume` (lines 135-143): SIGCONT the local decoder when one
is tracked and paused. -/
def resume (st : Sys) : Sys :=
  if st.localProc ≠ none ∧ st.isPlaying = false then { st with isPlaying := true }
  else st

/-- `AudioPlayer.toggle_shuffle` (lines 162-165). -/
def toggle_shuffle (st : Sys) : Sys := { st with shuffleMode := !st.shuffleMode }

/-- `AudioPlayer.toggle_repeat` (lines 167-170). -/
def toggle_repeat (st : Sys) : Sys := { st with repeatMode := !st.repeatMode }

/-- The record returned by `get_status`. -/
structure Status where
  is_playing : Bool
  current_song : Option String
  volume : Int
  shuffle_mode : Bool
  repeat_mode : Bool
  playlist_length : Nat
  current_index : Nat
deriving DecidableEq, Repr

/-- `AudioPlayer.get_status` (lines 172-186): `current_song` is the playlist
entry at the current index exactly under the guard
`self.current_playlist and 0 <= self.current_index < len(...)`; the guard is
what licenses the indexing, so the embedding indexes with the guard's own
proof. -/
def get_status (st : Sys) : Status :=
  { is_playing := st.isPlaying
    current_song :=
      if h : st.playlist ≠ [] ∧ st.index < st.playlist.length then
        some (st.playlist.get ⟨st.index, h.2⟩)
      else none
    volume := st.volume
    shuffle_mode := st.shuffleMode
    repeat_mode := st.repeatMode
    playlist_length := st.playlist.length
    current_index := st.index }

end AudioPlayer

namespace TTSEngine

/-- The scheduler-level effect of `TTSEngine.speak` (lines 54-85) together
with `_play_audio` (lines 251-277): run the cache/render logic (`speak`), and
if a file is to be played, spawn the TTS output process and suspend awaiting
it.  Note that nothing here stops the music players: `speak` is reached from
the webhook's `/tts` endpoint, which never touches `AudioPlayer`. -/
def speak_step (env : Env) (text : String) (voice : Option String)
    (speed : String) (st : Sys) : Sys :=
  match speak env.hash env.renderOk text voice speed st.tts with
  | (some _, t) =>
    let pid := st.procs.length
    { st with tts := t, procs := st.procs ++ [true], ttsProc := some pid
              tasks := st.tasks ++ [Waiter.waitTts pid] }
  | (none, t) => { st with tts := t }

end TTSEngine

/-! ## Command dispatch (`hc3_listener.py`, `handle_command` lines 38-61) -/

/-- A command object from HC3: the `type` field plus the type-specific
payload fields, each `none` when the key is absent.  `audio_only` defaults to
`True` and `shuffle` to `False` via `.get(..., default)`. -/
structure Cmd where
  typ : Option String := none
  song_name : Option String := none
  playlist_name : Option String := none
  query : Option String := none
  url : Option String := none
  playlist_url : Option String := none
  audio_only : Bool := true
  shuffle : Bool := false
  volume : Option Int := none
deriving DecidableEq, Repr

namespace HC3

/-- `HC3CommandListener.handle_command` (lines 38-61) with its per-type
handlers (lines 63-111) inlined.  String payloads are guarded by Python
truthiness (`if song_name:` etc.: absent or empty means skip); `volume`
defaults to 50 and is not guarded.  An unrecognized `type` only logs. -/
def handle_command (env : Env) (c : Cmd) (st : Sys) : Sys :=
  if c.typ = some "play_music" then
    match c.song_name with
    | some s => if s ≠ "" then (AudioPlayer.play_song env s st).2 else st
    | none => st
  else if c.typ = some "stop_music" then
    AudioPlayer.stop st
  else if c.typ = some "play_playlist" then
    match c.playlist_name with
    | some s => if s ≠ "" then (AudioPlayer.play_playlist env s st).2 else st
    | none => st
  else if c.typ = some "play_youtube_search" then
    match c.query with
    | some s => if s ≠ "" then (AudioPlayer.play_youtube_search env s st).2 else st
    | none => st
  else if c.typ = some "play_youtube_url" then
    match c.url with
    | some s => if s ≠ "" then (AudioPlayer.play_youtube_url s st).2 else st
    | none => st
  else if c.typ = some "play_youtube_playlist" then
    match c.playlist_url with
    | some s => if s ≠ "" then (AudioPlayer.play_youtube_playlist env s st).2 else st
    | none => st
  else if c.typ = some "volume" then
    AudioPlayer.set_volume (c.volume.getD 50) st
  else st

end HC3

/-! ## Scheduler

Commands run atomically up to their first long suspension; suspended
coroutines resume when the process they wait on has exited, as separate
scheduler steps.  A process may also exit naturally at any moment, which only
records the exit — the waiting coroutine's callback is delivered by a later
`resumeWaiter` step, modelling asyncio's (possibly delayed) exit
notification. -/

/-- A natural process exit: the external process stops running on its own. -/
def procExitNat (st : Sys) (pid : Nat) : Sys :=
  { st with procs := st.procs.set pid false }

/-- Remove the `i`-th suspended coroutine (it is being resumed). -/
def removeTask (st : Sys) (i : Nat) : Sys :=
  { st with tasks := st.tasks.eraseIdx i }

/-- Resume the `i`-th suspended coroutine.  `waitLocal` resumes the tail of
`_play_file` (lines 236-238): `if self.is_playing and self.current_playlist:
await self._handle_song_finished()` — the guard reads the *current* shared
flags, whichever session set them.  `waitYtDec` proceeds to
`await yt_process.wait()`; `waitYtFetch` returns `True` to the
`AudioPlayer.play_youtube_*` caller, which sets `is_playing = True`;
`waitTts` just finishes (its fallback players are internal to the TTS
engine). -/
def resume_task (env : Env) (st : Sys) (i : Nat) : Sys :=
  match st.tasks.get? i with
  | some (Waiter.waitLocal _) =>
    let st' := removeTask st i
    if st'.isPlaying = true ∧ st'.playlist ≠ [] then
      AudioPlayer.handle_song_finished env st'
    else st'
  | some (Waiter.waitYtDec _ f) =>
    let st' := removeTask st i
    { st' with tasks := st'.tasks ++ [Waiter.waitYtFetch f] }
  | some (Waiter.waitYtFetch _) =>
    let st' := removeTask st i
    { st' with isPlaying := true }
  | some (Waiter.waitTts _) => removeTask st i
  | none => st

/-- The pid a waiter is waiting on. -/
def Waiter.pid : Waiter → Nat
  | Waiter.waitLocal p => p
  | Waiter.waitYtDec d _ => d
  | Waiter.waitYtFetch f => f
  | Waiter.waitTts p => p

/-- One scheduler step: an externally issued operation (a dispatched command,
a direct `AudioPlayer` method call, or a webhook TTS request), a natural
process exit, or the resumption of a suspended coroutine whose awaited
process has exited. -/
inductive Step (env : Env) : Sys → Sys → Prop where
  | command (c : Cmd) (st : Sys) : Step env st (HC3.handle_command env c st)
  | nextSong (st : Sys) : Step env st (AudioPlayer.next_song env st)
  | previousSong (st : Sys) : Step env st (AudioPlayer.previous_song env st)
  | pauseCmd (st : Sys) : Step env st (AudioPlayer.pause st)
  | resumeCmd (st : Sys) : Step env st (AudioPlayer.resume st)
  | toggleShuffle (st : Sys) : Step env st (AudioPlayer.toggle_shuffle st)
  | toggleRepeat (st : Sys) : Step env st (AudioPlayer.toggle_repeat st)
  | ttsSpeak (text : String) (voice : Option String) (speed : String) (st : Sys) :
      Step env st (TTSEngine.speak_step env text voice speed st)
  | procExit (pid : Nat) (st : Sys) (h : procAlive st pid = true) :
      Step env st (procExitNat st pid)
  | resumeWaiter (i : Nat) (w : Waiter) (st : Sys)
      (h : st.tasks.get? i = some w) (hdead : procAlive st w.pid = false) :
      Step env st (resume_task env st i)

/-- Reachability from the initial state. -/
def Reachable (env : Env) (st : Sys) : Prop :=
  Relation.ReflTransGen (Step env) sysInit st

/-! ## Basic lemmas about the embedded operations -/

@[simp] theorem stop_playlist (st : Sys) : (AudioPlayer.stop st).playlist = st.playlist := by
  unfold AudioPlayer.stop YouTubePlayer.stop
  cases h : st.localProc <;> dsimp <;> split <;> simp_all

@[simp] theorem stop_index (st : Sys) : (AudioPlayer.stop st).index = st.index := by
  unfold AudioPlayer.stop YouTubePlayer.stop
  cases h : st.localProc <;> dsimp <;> split <;> simp_all

@[simp] theorem stop_repeatMode (st : Sys) : (AudioPlayer.stop st).repeatMode = st.repeatMode := by
  unfold AudioPlayer.stop YouTubePlayer.stop
  cases h : st.localProc <;> dsimp <;> split <;> simp_all

@[simp] theorem stop_shuffleMode (st : Sys) : (AudioPlayer.stop st).shuffleMode = st.shuffleMode := by
  unfold AudioPlayer.stop YouTubePlayer.stop
  cases h : st.localProc <;> dsimp <;> split <;> simp_all

@[simp] theorem stop_volume (st : Sys) : (AudioPlayer.stop st).volume = st.volume := by
  unfold AudioPlayer.stop YouTubePlayer.stop
  cases h : st.localProc <;> dsimp <;> split <;> simp_all

@[simp] theorem stop_tts (st : Sys) : (AudioPlayer.stop st).tts = st.tts := by
  unfold AudioPlayer.stop YouTubePlayer.stop
  cases h : st.localProc <;> dsimp <;> split <;> simp_all

@[simp] theorem stop_isPlaying (st : Sys) : (AudioPlayer.stop st).isPlaying = false := rfl

@[simp] theorem stop_localProc (st : Sys) : (AudioPlayer.stop st).localProc = none := by
  unfold AudioPlayer.stop YouTubePlayer.stop
  cases h : st.localProc <;> dsimp <;> split <;> simp_all

@[simp] theorem stop_ytProc (st : Sys) : (AudioPlayer.stop st).ytProc = none := by
  unfold AudioPlayer.stop YouTubePlayer.stop
  cases st.localProc <;> dsimp <;> split <;> simp_all

@[simp] theorem spawnLocalFile_playlist (st : Sys) :
    (AudioPlayer.spawnLocalFile st).playlist = st.playlist := rfl

@[simp] theorem spawnLocalFile_index (st : Sys) :
    (AudioPlayer.spawnLocalFile st).index = st.index := rfl

@[simp] theorem spawnLocalFile_repeatMode (st : Sys) :
    (AudioPlayer.spawnLocalFile st).repeatMode = st.repeatMode := rfl

@[simp] theorem spawnLocalFile_shuffleMode (st : Sys) :
    (AudioPlayer.spawnLocalFile st).shuffleMode = st.shuffleMode := rfl

@[simp] theorem spawnLocalFile_volume (st : Sys) :
    (AudioPlayer.spawnLocalFile st).volume = st.volume := rfl

@[simp] theorem spawnLocalFile_isPlaying (st : Sys) :
    (AudioPlayer.spawnLocalFile st).isPlaying = true := rfl

/-- When every song resolves and the current index is valid,
`_play_current_song` stops everything and starts the current file (no skip
recursion happens), for any fuel. -/
theorem playCurrentSongF_spawn (env : Env) (hres : ∀ s, env.resolve s = true)
    (fuel : Nat) (st : Sys) (hg : ¬(st.playlist = [] ∨ st.playlist.length ≤ st.index)) :
    AudioPlayer.playCurrentSongF env fuel st =
      AudioPlayer.spawnLocalFile (AudioPlayer.stop st) := by
  unfold AudioPlayer.playCurrentSongF
  simp [hg, hres]

/-- Python's `(i - 1) % L` floor-mod, for `0 ≤ i < L`, as a Nat formula. -/
theorem int_prev_mod (i L : Nat) (h : i < L) :
    (((i : Int) - 1) % (L : Int)).toNat = (i + L - 1) % L := by
  have h1 : ((i : Int) - 1) % (L : Int) = ((i + L - 1 : Nat) : Int) % (L : Int) := by
    have h2 : ((i + L - 1 : Nat) : Int) = (i : Int) - 1 + (L : Int) * 1 := by
      push_cast [Nat.cast_sub (show 1 ≤ i + L by omega)]
      ring
    rw [h2, Int.add_mul_emod_self_left]
  rw [h1]
  norm_cast

/-- **C4.** For every non-empty playlist of length `L` and current index in
`[0, L)`, when the involved tracks resolve, `next()` sets the index to
`(index + 1) % L` and `previous()` to Python's floor-mod `(index - 1) % L`
(equal to `(index + L - 1) % L`, so `previous()` at index 0 yields `L - 1`);
both results lie in `[0, L)` and are independent of the repeat flag.  On an
empty queue both operations are no-ops that change no state at all. -/
theorem C4_next_previous_mod (env : Env) (hres : ∀ s, env.resolve s = true) :
    (∀ st : Sys, st.playlist ≠ [] → st.index < st.playlist.length →
      (AudioPlayer.next_song env st).index = (st.index + 1) % st.playlist.length ∧
      (AudioPlayer.previous_song env st).index =
        (st.index + st.playlist.length - 1) % st.playlist.length ∧
      (AudioPlayer.next_song env st).index < st.playlist.length ∧
      (AudioPlayer.previous_song env st).index < st.playlist.length ∧
      (∀ b : Bool, (AudioPlayer.next_song env { st with repeatMode := b }).index =
        (AudioPlayer.next_song env st).index) ∧
      (∀ b : Bool, (AudioPlayer.previous_song env { st with repeatMode := b }).index =
        (AudioPlayer.previous_song env st).index)) ∧
    (∀ st : Sys, st.playlist = [] →
      AudioPlayer.next_song env st = st ∧ AudioPlayer.previous_song env st = st) := by
  have hnext : ∀ st : Sys, st.playlist ≠ [] → st.index < st.playlist.length →
      (AudioPlayer.next_song env st).index = (st.index + 1) % st.playlist.length := by
    intro st hne hidx
    have hL : 0 < st.playlist.length := List.length_pos.mpr hne
    unfold AudioPlayer.next_song
    rw [if_neg hne, playCurrentSongF_spawn env hres]
    · simp
    · simp [hne, Nat.mod_lt _ hL]
  have hprev : ∀ st : Sys, st.playlist ≠ [] → st.index < st.playlist.length →
      (AudioPlayer.previous_song env st).index =
        (st.index + st.playlist.length - 1) % st.playlist.length := by
    intro st hne hidx
    have hL : 0 < st.playlist.length := List.length_pos.mpr hne
    unfold AudioPlayer.previous_song
    rw [if_neg hne, playCurrentSongF_spawn env hres]
    · simp [int_prev_mod _ _ hidx]
    · simp only [not_or]
      refine ⟨hne, ?_⟩
      rw [int_prev_mod _ _ hidx]
      simp [Nat.mod_lt _ hL]
  refine ⟨?_, ?_⟩
  · intro st hne hidx
    have hL : 0 < st.playlist.length := List.length_pos.mpr hne
    refine ⟨hnext st hne hidx, hprev st hne hidx, ?_, ?_, ?_, ?_⟩
    · rw [hnext st hne hidx]; exact Nat.mod_lt _ hL
    · rw [hprev st hne hidx]; exact Nat.mod_lt _ hL
    · intro b
      rw [hnext st hne hidx, hnext { st with repeatMode := b } hne hidx]
    · intro b
      rw [hprev st hne hidx, hprev { st with repeatMode := b } hne hidx]
  · intro st he
    refine ⟨?_, ?_⟩
    · unfold AudioPlayer.next_song
      simp [he]
    · unfold AudioPlayer.previous_song
      simp [he]

/-- Environment used to instantiate witnesses and concrete scenarios: every
track resolves, `"morning"` is the three-song playlist of the spec's example,
no shuffle permutation, container mode, md5 abstracted by the identity. -/
def wEnv : Env :=
  { resolve := fun _ => true
    playlists := fun n => if n = "morning" then ["a", "b", "c"] else []
    shuf := id, audioHost := false
    searchResult := fun _ => none, ytVideos := fun _ => none
    hash := id, renderOk := true }

/-- Witness state for C4: a three-track playlist at its last index. -/
def c4w : Sys := { sysInit with playlist := ["a", "b", "c"], index := 2 }

/-- Witness for C4 at a concrete input: `next()` wraps 2 to 0 and
`previous()` steps 2 to 1 on a 3-track playlist; on the empty initial queue
both are no-ops. -/
theorem C4_witness :
    (AudioPlayer.next_song wEnv c4w).index = (2 + 1) % 3 ∧
    (AudioPlayer.previous_song wEnv c4w).index = (2 + 3 - 1) % 3 ∧
    AudioPlayer.next_song wEnv sysInit = sysInit := by
  have h := C4_next_previous_mod wEnv (fun _ => rfl)
  have h1 := h.1 c4w (by decide) (by decide)
  have h2 := (h.2 sysInit rfl).1
  exact ⟨h1.1, h1.2.1, h2⟩

/-- On a length-1 playlist with repeat on, a natural end replays the current
track: `_handle_song_finished` takes its first branch and restarts the file. -/
theorem hsf_repeat1 (env : Env) (hres : ∀ s, env.resolve s = true) (st : Sys)
    (h1 : st.repeatMode = true) (h2 : st.playlist.length = 1)
    (h3 : st.index < st.playlist.length) :
    AudioPlayer.handle_song_finished env st =
      AudioPlayer.spawnLocalFile (AudioPlayer.stop st) := by
  unfold AudioPlayer.handle_song_finished AudioPlayer.play_current_song
  rw [if_pos ⟨h1, h2⟩, playCurrentSongF_spawn env hres]
  simp only [not_or]
  exact ⟨List.ne_nil_of_length_pos (h2 ▸ Nat.one_pos), by omega⟩

/-- Iterating natural ends on a length-1 repeat-on playlist preserves the
queue shape and keeps the player playing. -/
theorem hsf_L1_iter (env : Env) (hres : ∀ s, env.resolve s = true) :
    ∀ n : Nat, ∀ st : Sys, st.playlist.length = 1 → st.repeatMode = true →
      st.index = 0 →
      ((AudioPlayer.handle_song_finished env)^[n + 1] st).isPlaying = true ∧
      ((AudioPlayer.handle_song_finished env)^[n + 1] st).playlist = st.playlist ∧
      ((AudioPlayer.handle_song_finished env)^[n + 1] st).repeatMode = true ∧
      ((AudioPlayer.handle_song_finished env)^[n + 1] st).index = 0 := by
  intro n
  induction n with
  | zero =>
    intro st h1 h2 h3
    have hs := hsf_repeat1 env hres st h2 h1 (by omega)
    simp [Function.iterate_one, hs, h2, h3]
  | succ n ih =>
    intro st h1 h2 h3
    have hs := hsf_repeat1 env hres st h2 h1 (by omega)
    rw [Function.iterate_succ_apply]
    obtain ⟨a, b, c, d⟩ := ih (AudioPlayer.handle_song_finished env st)
      (by rw [hs]; simp [h1]) (by rw [hs]; simp [h2]) (by rw [hs]; simp [h3])
    refine ⟨a, ?_, c, d⟩
    rw [b, hs]
    simp

/-- The three-track concrete scenario of the spec: `playPlaylist("morning")`
with songs `["a","b","c"]`, shuffle and repeat off, followed by successive
natural ends. -/
def c3p0 : Sys := (AudioPlayer.play_playlist wEnv "morning" sysInit).2

/-- State after the first natural end of the three-track scenario. -/
def c3p1 : Sys := AudioPlayer.handle_song_finished wEnv c3p0

/-- State after the second natural end of the three-track scenario. -/
def c3p2 : Sys := AudioPlayer.handle_song_finished wEnv c3p1

/-- State after the third natural end of the three-track scenario. -/
def c3p3 : Sys := AudioPlayer.handle_song_finished wEnv c3p2

/-- **C3.** The natural-end transition of the queue, when tracks resolve:
with repeat on and length 1 the index stays put and the track replays; else
with `index < length - 1` the index advances by one and plays; else with
repeat on the index wraps to 0 and plays; else the queue finishes with the
playing flag cleared.  Moreover a length-1 repeat-on playlist stays playing
after any number of natural ends, and the three-track shuffle-off repeat-off
scenario steps through indices 0, 1, 2 and then finishes. -/
theorem C3_natural_end_transition (env : Env) (hres : ∀ s, env.resolve s = true) :
    (∀ st : Sys, st.playlist ≠ [] → st.index < st.playlist.length →
      ((st.repeatMode = true ∧ st.playlist.length = 1 →
        (AudioPlayer.handle_song_finished env st).index = st.index ∧
        (AudioPlayer.handle_song_finished env st).isPlaying = true) ∧
      (¬(st.repeatMode = true ∧ st.playlist.length = 1) →
        st.index < st.playlist.length - 1 →
        (AudioPlayer.handle_song_finished env st).index = st.index + 1 ∧
        (AudioPlayer.handle_song_finished env st).isPlaying = true) ∧
      (¬(st.repeatMode = true ∧ st.playlist.length = 1) →
        ¬st.index < st.playlist.length - 1 → st.repeatMode = true →
        (AudioPlayer.handle_song_finished env st).index = 0 ∧
        (AudioPlayer.handle_song_finished env st).isPlaying = true) ∧
      (st.repeatMode = false → ¬st.index < st.playlist.length - 1 →
        (AudioPlayer.handle_song_finished env st).isPlaying = false ∧
        (AudioPlayer.handle_song_finished env st).index = st.index))) ∧
    (∀ n : Nat, ∀ st : Sys, st.playlist.length = 1 → st.repeatMode = true →
      st.index = 0 →
      ((AudioPlayer.handle_song_finished env)^[n + 1] st).isPlaying = true) ∧
    (c3p0.index = 0 ∧ c3p0.isPlaying = true ∧
      c3p1.index = 1 ∧ c3p1.isPlaying = true ∧
      c3p2.index = 2 ∧ c3p2.isPlaying = true ∧
      c3p3.isPlaying = false) := by
  refine ⟨?_, fun n st h1 h2 h3 => (hsf_L1_iter env hres n st h1 h2 h3).1, by decide⟩
  intro st hne hidx
  have hL : 0 < st.playlist.length := List.length_pos.mpr hne
  refine ⟨?_, ?_, ?_, ?_⟩
  · rintro ⟨h1, h2⟩
    rw [hsf_repeat1 env hres st h1 h2 hidx]
    simp
  · intro h1 h2
    unfold AudioPlayer.handle_song_finished
    rw [if_neg h1, if_pos h2]
    unfold AudioPlayer.next_song
    rw [if_neg hne, playCurrentSongF_spawn env hres]
    · simp [Nat.mod_eq_of_lt (show st.index + 1 < st.playlist.length by omega)]
    · simp only [not_or]
      exact ⟨hne, by simp [Nat.mod_lt _ hL]⟩
  · intro h1 h2 h3
    unfold AudioPlayer.handle_song_finished
    rw [if_neg h1, if_neg h2, if_pos h3]
    unfold AudioPlayer.play_current_song
    rw [playCurrentSongF_spawn env hres]
    · simp
    · simp only [not_or]
      exact ⟨hne, by omega⟩
  · intro h1 h2
    unfold AudioPlayer.handle_song_finished
    rw [if_neg (by simp [h1]), if_neg h2, if_neg (by simp [h1])]
    exact ⟨rfl, rfl⟩

/-- Witness state for C3: a length-1 playlist with repeat on. -/
def c3w : Sys :=
  { sysInit with playlist := ["a"], index := 0, repeatMode := true, isPlaying := true }

/-- Witness for C3 at a concrete input: a natural end on a length-1 repeat-on
playlist keeps index 0 and keeps playing, even after five consecutive natural
ends. -/
theorem C3_witness :
    (AudioPlayer.handle_song_finished wEnv c3w).index = 0 ∧
    (AudioPlayer.handle_song_finished wEnv c3w).isPlaying = true ∧
    ((AudioPlayer.handle_song_finished wEnv)^[5] c3w).isPlaying = true := by
  have h := C3_natural_end_transition wEnv (fun _ => rfl)
  have h1 := (h.1 c3w (by decide) (by decide)).1 ⟨rfl, rfl⟩
  have h2 := h.2.1 4 c3w (by decide) rfl rfl
  exact ⟨h1.1, h1.2, h2⟩

/-- **C8.** A command whose `type` is outside the enumerated set is logged
and ignored: handling it is total (the embedding is a function) and returns
the state unchanged, so `get_status` is unchanged too. -/
theorem C8_unknown_command_noop (env : Env) (c : Cmd) (st : Sys)
    (h : c.typ ∉ [some "play_music", some "stop_music", some "play_playlist",
      some "play_youtube_search", some "play_youtube_url",
      some "play_youtube_playlist", some "volume"]) :
    HC3.handle_command env c st = st ∧
    AudioPlayer.get_status (HC3.handle_command env c st) = AudioPlayer.get_status st := by
  simp only [List.mem_cons, List.not_mem_nil, or_false, not_or] at h
  obtain ⟨h1, h2, h3, h4, h5, h6, h7⟩ := h
  have he : HC3.handle_command env c st = st := by
    unfold HC3.handle_command
    rw [if_neg h1, if_neg h2, if_neg h3, if_neg h4, if_neg h5, if_neg h6, if_neg h7]
  exact ⟨he, by rw [he]⟩

/-- Witness for C8 at a concrete input: a `"foobar"` command leaves the
initial state and its status untouched. -/
theorem C8_witness :
    HC3.handle_command wEnv { typ := some "foobar" } sysInit = sysInit ∧
    AudioPlayer.get_status (HC3.handle_command wEnv { typ := some "foobar" } sysInit) =
      AudioPlayer.get_status sysInit :=
  C8_unknown_command_noop wEnv { typ := some "foobar" } sysInit (by decide)

/-- **C9.** Missing resources change nothing: `play_song` on a name that does
not resolve, and `play_playlist` on a name whose definition is missing or
loads empty, both return failure and leave the whole state (session handles,
playlist, index, playing flag, volume) exactly as it was. -/
theorem C9_resource_not_found (env : Env) (name pname : String) (st : Sys)
    (h1 : env.resolve name = false) (h2 : env.playlists pname = []) :
    AudioPlayer.play_song env name st = (false, st) ∧
    AudioPlayer.play_playlist env pname st = (false, st) := by
  constructor
  · unfold AudioPlayer.play_song
    rw [h1]
    rfl
  · unfold AudioPlayer.play_playlist
    simp [h2]

/-- Environment for the C9 witness: nothing resolves, no playlists exist. -/
def c9Env : Env :=
  { resolve := fun _ => false, playlists := fun _ => []
    shuf := id, audioHost := false
    searchResult := fun _ => none, ytVideos := fun _ => none
    hash := id, renderOk := true }

/-- Witness state for C9: a player mid-playback. -/
def c9w : Sys :=
  { sysInit with playlist := ["a", "b"], index := 1, isPlaying := true
                 procs := [true], localProc := some 0, volume := 70 }

/-- Witness for C9 at a concrete input: with a missing track and a missing
playlist, both operations fail and change nothing. -/
theorem C9_witness :
    AudioPlayer.play_song c9Env "ghost" c9w = (false, c9w) ∧
    AudioPlayer.play_playlist c9Env "nope" c9w = (false, c9w) :=
  C9_resource_not_found c9Env "ghost" "nope" c9w rfl rfl

/-- **C10.** `get_status` is total (a Lean function; the indexing it performs
is licensed by its own guard, so there is no out-of-bounds access) and its
`current_song` field is the playlist entry at the current index exactly when
the playlist is non-empty and the index is in bounds, and `None` otherwise —
in particular whenever the playlist is empty. -/
theorem C10_get_status_current_song (st : Sys) :
    (st.playlist ≠ [] ∧ st.index < st.playlist.length →
      (AudioPlayer.get_status st).current_song = st.playlist.get? st.index ∧
      ((AudioPlayer.get_status st).current_song).isSome = true) ∧
    (¬(st.playlist ≠ [] ∧ st.index < st.playlist.length) →
      (AudioPlayer.get_status st).current_song = none) := by
  constructor
  · intro h
    unfold AudioPlayer.get_status
    simp only [dif_pos h]
    exact ⟨(List.get?_eq_get h.2).symm, rfl⟩
  · intro h
    unfold AudioPlayer.get_status
    simp only [dif_neg h]

/-- Witness for C10 at concrete inputs: a valid index yields the entry, the
empty initial queue yields `none`. -/
theorem C10_witness :
    (AudioPlayer.get_status c9w).current_song = c9w.playlist.get? c9w.index ∧
    (AudioPlayer.get_status sysInit).current_song = none :=
  ⟨((C10_get_status_current_song c9w).1 (by decide)).1,
    (C10_get_status_current_song sysInit).2 (by decide)⟩

/-- The voice actually used by `speak`: Python-falsy voices (absent or empty)
fall back to the default voice. -/
def effectiveVoice : Option String → String
  | none => defaultVoice
  | some w => if w = "" then defaultVoice else w

/-- `speak` computes its key from the effective voice. -/
theorem speak_key (hash : String → String) (rOk : Bool) (text : String)
    (voice : Option String) (speed : String) (st : TTSState) :
    speak hash rOk text voice speed st =
      if text = "" ∨ (pyStrip text.data).isEmpty then (none, st)
      else
        let key := generate_cache_key hash text (effectiveVoice voice) speed
        if key ∈ st.cache then (some key, st)
        else if rOk then (some key, ⟨key :: st.cache, st.renders + 1⟩)
        else (none, ⟨st.cache, st.renders + 1⟩) := by
  unfold speak effectiveVoice
  cases voice <;> rfl

/-- **C6.** The TTS cache protocol: whenever a `speak` call played a file
(`some p`, which in particular holds once the first call's cache write
completed), an identical second call is a cache hit — it returns the same
cached path and leaves the state untouched (no second synthesis: `renders`
does not change), regardless of whether the renderer would succeed.  And on a
miss of non-empty text, the render function is invoked once and its result is
stored under the hash key of `(text, voice, speed)`, which is also the path
returned. -/
theorem C6_cache_hit_no_second_render (hash : String → String) (rOk rOk2 : Bool)
    (text : String) (voice : Option String) (speed : String) (st : TTSState) :
    (∀ p, (speak hash rOk text voice speed st).1 = some p →
      speak hash rOk2 text voice speed (speak hash rOk text voice speed st).2 =
        (some p, (speak hash rOk text voice speed st).2)) ∧
    (¬(text = "" ∨ (pyStrip text.data).isEmpty) →
      generate_cache_key hash text (effectiveVoice voice) speed ∉ st.cache →
      rOk = true →
      (speak hash rOk text voice speed st).2.renders = st.renders + 1 ∧
      generate_cache_key hash text (effectiveVoice voice) speed ∈
        (speak hash rOk text voice speed st).2.cache ∧
      (speak hash rOk text voice speed st).1 =
        some (generate_cache_key hash text (effectiveVoice voice) speed)) := by
  rw [speak_key, speak_key]
  by_cases he : text = "" ∨ (pyStrip text.data).isEmpty
  · simp only [if_pos he]
    exact ⟨fun p hp => by simp at hp, fun hne => absurd he hne⟩
  · simp only [if_neg he]
    by_cases hc : generate_cache_key hash text (effectiveVoice voice) speed ∈ st.cache
    · simp only [if_pos hc]
      refine ⟨?_, fun _ hc2 => absurd hc hc2⟩
      intro p hp
      obtain rfl : generate_cache_key hash text (effectiveVoice voice) speed = p := by
        simpa using hp
      simp only [if_pos hc]
    · simp only [if_neg hc]
      cases rOk with
      | false =>
        simp only [Bool.false_eq_true, if_neg, ite_false]
        exact ⟨fun p hp => by simp at hp, fun _ _ h => by cases h⟩
      | true =>
        simp only [ite_true]
        refine ⟨?_, fun _ _ _ => ⟨by simp, by simp, by simp⟩⟩
        intro p hp
        obtain rfl : generate_cache_key hash text (effectiveVoice voice) speed = p := by
          simpa using hp
        simp only [if_pos (List.mem_cons_self
          (generate_cache_key hash text (effectiveVoice voice) speed) st.cache)]

/-- Witness for C6 at a concrete input: first call renders and caches, second
identical call hits without a second render; the key holds the hash of
`(text, voice, speed)`. -/
theorem C6_witness :
    speak id false "hi" none "1.0" (speak id true "hi" none "1.0" ⟨[], 0⟩).2 =
      (some "hi_default_1.0", (speak id true "hi" none "1.0" ⟨[], 0⟩).2) ∧
    (speak id true "hi" none "1.0" (⟨[], 0⟩ : TTSState)).2.renders = 0 + 1 ∧
    "hi_default_1.0" ∈ (speak id true "hi" none "1.0" (⟨[], 0⟩ : TTSState)).2.cache := by
  have h := C6_cache_hit_no_second_render id true false "hi" none "1.0" ⟨[], 0⟩
  have h1 := h.1 "hi_default_1.0" (by decide)
  have h2 := h.2 (by decide) (by decide) rfl
  exact ⟨h1, h2.1, by exact h2.2.1⟩

/-- Counterexample pipeline for C5: fetcher and decoder both live, handle
set, decoder responsive to SIGTERM. -/
def c5cex : PipelineState :=
  { fetcherAlive := true, decoderAlive := true, handleSet := true
    decoderStubborn := false }

/-- **C5, counterexample.**  The claim says stopping a live pipeline
terminates the decoder first and *then the fetcher*, each with its own
grace-then-kill escalation.  On a concrete live pipeline, `stop` performs no
action at all on the fetcher — it is neither terminated nor killed and is
still alive afterwards — refuting the claim. -/
theorem C5_counterexample :
    (youtube_stop_fine c5cex).1.fetcherAlive = true ∧
    (youtube_stop_fine c5cex).1.decoderAlive = false ∧
    StopAct.terminate PipeTarget.fetcher ∉ (youtube_stop_fine c5cex).2 ∧
    StopAct.kill PipeTarget.fetcher ∉ (youtube_stop_fine c5cex).2 := by
  decide

/-- **C5, amended.**  When a live pipeline is stopped, the stop operation
applies the graceful-terminate, bounded-grace-wait, forced-kill escalation to
the decoder only (the kill step occurring exactly when the decoder survived
the terminate), clears the decoder handle — and does not signal the fetcher
at all: no action targets it and its liveness is unchanged. -/
theorem C5_stop_decoder_only (st : PipelineState) (h : st.handleSet = true) :
    (youtube_stop_fine st).1.decoderAlive = false ∧
    (youtube_stop_fine st).1.handleSet = false ∧
    (youtube_stop_fine st).1.fetcherAlive = st.fetcherAlive ∧
    (youtube_stop_fine st).2 =
      [StopAct.terminate PipeTarget.decoder, StopAct.graceWait] ++
        (if st.decoderAlive && st.decoderStubborn then
          [StopAct.kill PipeTarget.decoder] else []) ∧
    (∀ a ∈ (youtube_stop_fine st).2,
      a ≠ StopAct.terminate PipeTarget.fetcher ∧ a ≠ StopAct.kill PipeTarget.fetcher) := by
  unfold youtube_stop_fine
  rw [if_pos h]
  refine ⟨rfl, rfl, rfl, rfl, ?_⟩
  intro a ha
  dsimp only at ha
  by_cases hb : (st.decoderAlive && st.decoderStubborn) = true
  · rw [if_pos hb] at ha
    simp only [List.mem_append, List.mem_cons, List.not_mem_nil, or_false,
      List.mem_singleton] at ha
    rcases ha with (rfl | rfl) | rfl <;> exact ⟨by simp, by simp⟩
  · rw [if_neg hb] at ha
    simp only [List.append_nil, List.mem_cons, List.not_mem_nil, or_false,
      List.mem_singleton] at ha
    rcases ha with rfl | rfl <;> exact ⟨by simp, by simp⟩

/-- Witness for C5 (amended) at a concrete input: a stubborn decoder gets
terminate, grace wait, then kill; the fetcher stays alive and untargeted. -/
theorem C5_witness :
    (youtube_stop_fine ⟨true, true, true, true⟩).1.decoderAlive = false ∧
    (youtube_stop_fine ⟨true, true, true, true⟩).1.fetcherAlive = true ∧
    (youtube_stop_fine ⟨true, true, true, true⟩).2 =
      [StopAct.terminate PipeTarget.decoder, StopAct.graceWait,
        StopAct.kill PipeTarget.decoder] := by
  have h := C5_stop_decoder_only ⟨true, true, true, true⟩ rfl
  exact ⟨h.1, h.2.2.1, h.2.2.2.1⟩

/-! ## C1: stale natural-exit callbacks

The source has no generation token: the only guard against a stale
`track finished` callback is the tail of `_play_file`
(`if self.is_playing and self.current_playlist:`), which reads the *shared*
flags, whichever session last set them.  The trace below shows a natural exit
of a superseded session mutating the queue index. -/

/-- Environment for the C1 trace: everything resolves, playlist `"pl"` has
two songs. -/
def c1env : Env :=
  { resolve := fun _ => true
    playlists := fun n => if n = "pl" then ["a", "b"] else []
    shuf := id, audioHost := false
    searchResult := fun _ => none, ytVideos := fun _ => none
    hash := id, renderOk := true }

/-- C1 trace, step 1: `play_playlist("pl")` starts session 0 (pid 0) on
track `"a"`, index 0; its `_play_file` coroutine is suspended at
`wait()`. -/
def c1s1 : Sys :=
  HC3.handle_command c1env { typ := some "play_playlist", playlist_name := some "pl" } sysInit

/-- C1 trace, step 2: process 0 finishes track `"a"` *naturally*; the
waiting coroutine's callback has not been delivered yet. -/
def c1s2 : Sys := procExitNat c1s1 0

/-- C1 trace, step 3: `play_music("x")` supersedes session 0: it stops
everything and starts session 1 (pid 1), which is now the current session and
has set `is_playing` back to `True`.  The stale waiter of pid 0 is still
pending. -/
def c1s3 : Sys :=
  HC3.handle_command c1env { typ := some "play_music", song_name := some "x" } c1s2

/-- **C1, counterexample.**  The claim says a natural-exit callback of a
superseded session is always ignored and never mutates the queue's current
index.  In the reachable state `c1s3` the current session is pid 1
(`localProc = some 1`), while the naturally-exited pid 0's callback is still
pending; delivering it is a legal scheduler step, and it advances the queue
index from 0 to 1 (and tears down session 1 to start track `"b"`): the stale
callback is *not* ignored. -/
theorem C1_counterexample :
    Reachable c1env c1s3 ∧
    c1s3.tasks.get? 0 = some (Waiter.waitLocal 0) ∧
    procAlive c1s3 0 = false ∧
    c1s3.localProc = some 1 ∧
    Step c1env c1s3 (resume_task c1env c1s3 0) ∧
    c1s3.index = 0 ∧
    (resume_task c1env c1s3 0).index = 1 := by
  have r1 : Step c1env sysInit c1s1 :=
    Step.command { typ := some "play_playlist", playlist_name := some "pl" } sysInit
  have r2 : Step c1env c1s1 c1s2 := Step.procExit 0 c1s1 (by decide)
  have r3 : Step c1env c1s2 c1s3 :=
    Step.command { typ := some "play_music", song_name := some "x" } c1s2
  refine ⟨?_, by decide, by decide, by decide, ?_, by decide, by decide⟩
  · exact Relation.ReflTransGen.tail
      (Relation.ReflTransGen.tail (Relation.ReflTransGen.tail .refl r1) r2) r3
  · exact Step.resumeWaiter 0 (Waiter.waitLocal 0) c1s3 (by decide) (by decide)

/-- **C1, amended.**  The code has no generation token; a pending
`track finished` callback is ignored exactly when, at the moment it is
delivered, the shared `is_playing` flag is false or the playlist is empty: in
that case resuming it changes nothing except removing the finished coroutine —
the queue index, playlist, playing flag, process pool and handles are all
untouched.  (When a successor session has set `is_playing` back to true, the
stale callback is *not* ignored — see the counterexample.) -/
theorem C1_stale_exit_guard (env : Env) (st : Sys) (i pid : Nat)
    (hw : st.tasks.get? i = some (Waiter.waitLocal pid))
    (hguard : st.isPlaying = false ∨ st.playlist = []) :
    resume_task env st i = removeTask st i ∧
    (removeTask st i).index = st.index ∧
    (removeTask st i).playlist = st.playlist ∧
    (removeTask st i).isPlaying = st.isPlaying ∧
    (removeTask st i).procs = st.procs ∧
    (removeTask st i).localProc = st.localProc := by
  refine ⟨?_, rfl, rfl, rfl, rfl, rfl⟩
  unfold resume_task
  rw [hw]
  dsimp only
  rw [if_neg ?_]
  rcases hguard with hg | hg
  · intro hc
    rw [show (removeTask st i).isPlaying = st.isPlaying from rfl, hg] at hc
    exact absurd hc.1 (by simp)
  · intro hc
    rw [show (removeTask st i).playlist = st.playlist from rfl, hg] at hc
    exact absurd hc.2 (by simp)

/-- Witness state for C1 (amended): a stopped player with a stale waiter for
the dead pid 0. -/
def c1w : Sys :=
  { sysInit with procs := [false], playlist := ["a", "b"], index := 0
                 isPlaying := false, tasks := [Waiter.waitLocal 0] }

/-- Witness for C1 (amended) at a concrete input: delivering the stale
callback while nothing is playing removes the waiter and changes nothing
else. -/
theorem C1_witness :
    resume_task c1env c1w 0 = removeTask c1w 0 ∧
    (removeTask c1w 0).index = c1w.index ∧
    (removeTask c1w 0).playlist = c1w.playlist ∧
    (removeTask c1w 0).isPlaying = c1w.isPlaying ∧
    (removeTask c1w 0).procs = c1w.procs ∧
    (removeTask c1w 0).localProc = c1w.localProc :=
  C1_stale_exit_guard c1env c1w 0 0 (by decide) (Or.inl (by decide))

/-! ## C2: session exclusivity

The music players are exclusive with each other (every `play*` first runs a
full `stop()` of both), but the TTS output path never stops them, so a music
process and a TTS process can be live at the same time. -/

/-- Liveness of the process tracked by `AudioPlayer.current_process`. -/
def localLive (st : Sys) : Bool :=
  match st.localProc with
  | some p => procAlive st p
  | none => false

/-- Liveness of the process tracked by `YouTubePlayer.current_process`. -/
def ytLive (st : Sys) : Bool :=
  match st.ytProc with
  | some p => procAlive st p
  | none => false

/-- Liveness of the process tracked by `TTSEngine.current_process`. -/
def ttsLive (st : Sys) : Bool :=
  match st.ttsProc with
  | some p => procAlive st p
  | none => false

/-- Environment for the C2 trace. -/
def c2env : Env :=
  { resolve := fun _ => true
    playlists := fun _ => []
    shuf := id, audioHost := false
    searchResult := fun _ => none, ytVideos := fun _ => none
    hash := id, renderOk := true }

/-- C2 trace, step 1: `play_music("a")` starts the local music session
(pid 0); its coroutine waits for the track to end. -/
def c2s1 : Sys :=
  HC3.handle_command c2env { typ := some "play_music", song_name := some "a" } sysInit

/-- C2 trace, step 2: while the music still plays, a webhook `/tts` request
runs `speak`, which renders and then spawns the TTS output process (pid 1)
without stopping the music. -/
def c2s2 : Sys := TTSEngine.speak_step c2env "hi" none "1.0" c2s1

/-- **C2, counterexample.**  The claim says no reachable state has two live
playback process handles across the local player, the remote player and TTS
output.  The reachable state `c2s2` tracks the live local music decoder
(pid 0) *and* the live TTS output process (pid 1) simultaneously: TTS
playback is not serialized against music playback. -/
theorem C2_counterexample :
    Reachable c2env c2s2 ∧
    c2s2.localProc = some 0 ∧ c2s2.ttsProc = some 1 ∧
    procAlive c2s2 0 = true ∧ procAlive c2s2 1 = true ∧
    localLive c2s2 = true ∧ ttsLive c2s2 = true := by
  have r1 : Step c2env sysInit c2s1 :=
    Step.command { typ := some "play_music", song_name := some "a" } sysInit
  have r2 : Step c2env c2s1 c2s2 := Step.ttsSpeak "hi" none "1.0" c2s1
  exact ⟨Relation.ReflTransGen.tail (Relation.ReflTransGen.tail .refl r1) r2,
    by decide, by decide, by decide, by decide, by decide, by decide⟩

/-- Bound on an optional process handle. -/
def optBound : Option Nat → Nat → Prop
  | some p, n => p < n
  | none, _ => True

/-- The inductive invariant behind music-session exclusivity: all handles
point into the process pool, a true `YouTubePlayer.is_playing` flag implies a
tracked (possibly dead) decoder handle and a dead local session, and a live
YouTube decoder implies the flag. -/
def Inv (st : Sys) : Prop :=
  optBound st.localProc st.procs.length ∧
  optBound st.ytProc st.procs.length ∧
  optBound st.ytFetch st.procs.length ∧
  optBound st.ttsProc st.procs.length ∧
  (st.ytPlaying = true → st.ytProc ≠ none) ∧
  (st.ytPlaying = true → localLive st = false) ∧
  (ytLive st = true → st.ytPlaying = true)

theorem getD_set_false (l : List Bool) (p q : Nat) :
    (l.set p false).getD q false = if q = p then false else l.getD q false := by
  by_cases h : q = p
  · subst h
    simp only [if_pos rfl]
    by_cases hp : q < l.length
    · rw [List.getD_eq_getD_get?, List.get?_set_eq_of_lt _ hp]
      rfl
    · have hlen : (l.set q false).length ≤ q := by
        simpa [List.length_set] using Nat.le_of_not_lt hp
      rw [List.getD_eq_default _ _ hlen]
      simp
  · simp only [if_neg h]
    rw [List.getD_eq_getD_get?, List.getD_eq_getD_get?,
      List.get?_set_ne _ _ (Ne.symm h)]

theorem procAlive_set_false (st : Sys) (p q : Nat) :
    procAlive { st with procs := st.procs.set p false } q =
      if q = p then false else procAlive st q :=
  getD_set_false st.procs p q

theorem procAlive_append (st : Sys) (l' : List Bool) (q : Nat)
    (h : q < st.procs.length) :
    procAlive { st with procs := st.procs ++ l' } q = procAlive st q :=
  List.getD_append _ _ _ _ h

theorem procAlive_set_false_mono (st : Sys) (p q : Nat)
    (h : procAlive { st with procs := st.procs.set p false } q = true) :
    procAlive st q = true := by
  rw [procAlive_set_false] at h
  by_cases hq : q = p
  · rw [if_pos hq] at h
    cases h
  · rwa [if_neg hq] at h

@[simp] theorem stop_procs_length (st : Sys) :
    (AudioPlayer.stop st).procs.length = st.procs.length := by
  unfold AudioPlayer.stop YouTubePlayer.stop
  cases h : st.localProc <;> dsimp <;> split <;> simp_all [List.length_set]

@[simp] theorem stop_ytFetch (st : Sys) :
    (AudioPlayer.stop st).ytFetch = st.ytFetch := by
  unfold AudioPlayer.stop YouTubePlayer.stop
  cases h : st.localProc <;> dsimp <;> split <;> simp_all

@[simp] theorem stop_ttsProc (st : Sys) :
    (AudioPlayer.stop st).ttsProc = st.ttsProc := by
  unfold AudioPlayer.stop YouTubePlayer.stop
  cases h : st.localProc <;> dsimp <;> split <;> simp_all

theorem stop_ytPlaying (st : Sys) (h : st.ytPlaying = true → st.ytProc ≠ none) :
    (AudioPlayer.stop st).ytPlaying = false := by
  have hyp : st.ytProc = none → st.ytPlaying = false := by
    intro hn
    cases hflag : st.ytPlaying
    · rfl
    · exact absurd hn (h hflag)
  unfold AudioPlayer.stop YouTubePlayer.stop
  cases hl : st.localProc <;> dsimp <;> split <;> simp_all

@[simp] theorem localLive_stop (st : Sys) : localLive (AudioPlayer.stop st) = false := by
  unfold localLive
  rw [stop_localProc]

@[simp] theorem ytLive_stop (st : Sys) : ytLive (AudioPlayer.stop st) = false := by
  unfold ytLive
  rw [stop_ytProc]

theorem optBound_append (o : Option Nat) (l l' : List Bool)
    (h : optBound o l.length) : optBound o (l ++ l').length := by
  cases o
  · trivial
  · simp only [optBound] at h ⊢
    rw [List.length_append]
    omega

theorem optBound_length_eq (o : Option Nat) {n m : Nat} (h : optBound o n)
    (he : m = n) : optBound o m := he ▸ h

theorem inv_stop (st : Sys) (h : Inv st) :
    Inv (AudioPlayer.stop st) ∧ (AudioPlayer.stop st).ytPlaying = false := by
  obtain ⟨b1, b2, b3, b4, c5, c6, c7⟩ := h
  have hflag : (AudioPlayer.stop st).ytPlaying = false := stop_ytPlaying st c5
  refine ⟨⟨?_, ?_, ?_, ?_, ?_, ?_, ?_⟩, hflag⟩
  · rw [stop_localProc]
    trivial
  · rw [stop_ytProc]
    trivial
  · rw [stop_ytFetch]
    exact optBound_length_eq _ b3 (stop_procs_length st)
  · rw [stop_ttsProc]
    exact optBound_length_eq _ b4 (stop_procs_length st)
  · simp [hflag]
  · simp [hflag]
  · simp

theorem inv_spawnLocal (st : Sys) (h : Inv st) (hflag : st.ytPlaying = false) :
    Inv (AudioPlayer.spawnLocalFile st) := by
  obtain ⟨b1, b2, b3, b4, c5, c6, c7⟩ := h
  have hyt : ytLive st = false := by
    cases hx : ytLive st
    · rfl
    · rw [c7 hx] at hflag
      cases hflag
  refine ⟨?_, ?_, ?_, ?_, ?_, ?_, ?_⟩
  · show optBound (some st.procs.length) (st.procs ++ [true]).length
    simp [optBound]
  · exact optBound_append _ _ _ b2
  · exact optBound_append _ _ _ b3
  · exact optBound_append _ _ _ b4
  · intro hx
    exact absurd (show st.ytPlaying = true from hx) (by simp [hflag])
  · intro hx
    exact absurd (show st.ytPlaying = true from hx) (by simp [hflag])
  · intro hx
    have hx' : ytLive st = true := by
      cases hy : st.ytProc with
      | none =>
        have hfalse : ytLive (AudioPlayer.spawnLocalFile st) = false := by
          unfold ytLive AudioPlayer.spawnLocalFile
          dsimp only
          rw [hy]
        rw [hfalse] at hx
        cases hx
      | some p =>
        rw [hy] at b2
        have hx1 := hx
        unfold ytLive at hx1
        rw [show (AudioPlayer.spawnLocalFile st).ytProc = st.ytProc from rfl, hy] at hx1
        dsimp only at hx1
        have hx2 : procAlive { st with procs := st.procs ++ [true] } p = true := hx1
        rw [procAlive_append st [true] p b2] at hx2
        unfold ytLive
        rw [hy]
        exact hx2
    rw [c7 hx'] at hflag
    cases hflag

theorem localLive_stable (st st' : Sys)
    (hlo : st'.localProc = st.localProc)
    (hpa : ∀ p, p < st.procs.length → procAlive st' p = procAlive st p)
    (hbL : optBound st.localProc st.procs.length) :
    localLive st' = localLive st := by
  unfold localLive
  rw [hlo]
  cases hl : st.localProc with
  | none => rfl
  | some p =>
    rw [hl] at hbL
    exact hpa p hbL

theorem ytLive_stable (st st' : Sys)
    (hyo : st'.ytProc = st.ytProc)
    (hpa : ∀ p, p < st.procs.length → procAlive st' p = procAlive st p)
    (hbY : optBound st.ytProc st.procs.length) :
    ytLive st' = ytLive st := by
  unfold ytLive
  rw [hyo]
  cases hl : st.ytProc with
  | none => rfl
  | some p =>
    rw [hl] at hbY
    exact hpa p hbY

theorem localLive_set_mono (st : Sys) (p : Nat)
    (h : localLive { st with procs := st.procs.set p false } = true) :
    localLive st = true := by
  unfold localLive at h ⊢
  cases hl : st.localProc with
  | none => rw [hl] at h; exact h
  | some q =>
    rw [hl] at h
    dsimp only at h
    exact procAlive_set_false_mono st p q h

theorem ytLive_set_mono (st : Sys) (p : Nat)
    (h : ytLive { st with procs := st.procs.set p false } = true) :
    ytLive st = true := by
  unfold ytLive at h ⊢
  cases hl : st.ytProc with
  | none => rw [hl] at h; exact h
  | some q =>
    rw [hl] at h
    dsimp only at h
    exact procAlive_set_false_mono st p q h

theorem inv_playCurrentSongF (env : Env) (fuel : Nat) :
    ∀ st : Sys, Inv st → Inv (AudioPlayer.playCurrentSongF env fuel st) := by
  induction fuel with
  | zero =>
    intro st h
    unfold AudioPlayer.playCurrentSongF
    by_cases hg : st.playlist = [] ∨ st.playlist.length ≤ st.index
    · rw [if_pos hg]
      exact h
    · rw [if_neg hg]
      by_cases hr : env.resolve (st.playlist.getD st.index "") = true
      · rw [if_pos hr]
        exact inv_spawnLocal _ (inv_stop st h).1 (inv_stop st h).2
      · rw [if_neg hr]
        exact h
  | succ fuel ih =>
    intro st h
    unfold AudioPlayer.playCurrentSongF
    by_cases hg : st.playlist = [] ∨ st.playlist.length ≤ st.index
    · rw [if_pos hg]
      exact h
    · rw [if_neg hg]
      by_cases hr : env.resolve (st.playlist.getD st.index "") = true
      · rw [if_pos hr]
        exact inv_spawnLocal _ (inv_stop st h).1 (inv_stop st h).2
      · rw [if_neg hr]
        exact ih _ h

theorem inv_next_song (env : Env) (st : Sys) (h : Inv st) :
    Inv (AudioPlayer.next_song env st) := by
  unfold AudioPlayer.next_song
  by_cases he : st.playlist = []
  · rw [if_pos he]
    exact h
  · rw [if_neg he]
    exact inv_playCurrentSongF env _ _ h

theorem inv_previous_song (env : Env) (st : Sys) (h : Inv st) :
    Inv (AudioPlayer.previous_song env st) := by
  unfold AudioPlayer.previous_song
  by_cases he : st.playlist = []
  · rw [if_pos he]
    exact h
  · rw [if_neg he]
    exact inv_playCurrentSongF env _ _ h

theorem inv_handle_song_finished (env : Env) (st : Sys) (h : Inv st) :
    Inv (AudioPlayer.handle_song_finished env st) := by
  unfold AudioPlayer.handle_song_finished AudioPlayer.play_current_song
  by_cases h1 : st.repeatMode = true ∧ st.playlist.length = 1
  · rw [if_pos h1]
    exact inv_playCurrentSongF env _ _ h
  · rw [if_neg h1]
    by_cases h2 : st.index < st.playlist.length - 1
    · rw [if_pos h2]
      exact inv_next_song env st h
    · rw [if_neg h2]
      by_cases h3 : st.repeatMode = true
      · rw [if_pos h3]
        exact inv_playCurrentSongF env _ _ h
      · rw [if_neg h3]
        exact h

theorem inv_play_song (env : Env) (name : String) (st : Sys) (h : Inv st) :
    Inv (AudioPlayer.play_song env name st).2 := by
  unfold AudioPlayer.play_song
  by_cases hr : env.resolve name = true
  · rw [if_pos hr]
    exact inv_spawnLocal _ (inv_stop st h).1 (inv_stop st h).2
  · rw [if_neg hr]
    exact h

theorem inv_play_playlist (env : Env) (name : String) (st : Sys) (h : Inv st) :
    Inv (AudioPlayer.play_playlist env name st).2 := by
  unfold AudioPlayer.play_playlist
  by_cases he : env.playlists name = []
  · rw [if_pos he]
    exact h
  · rw [if_neg he]
    dsimp only
    exact inv_playCurrentSongF env _ _ h

theorem inv_ytStop (st : Sys) (h : Inv st) :
    Inv (YouTubePlayer.stop st) ∧ (YouTubePlayer.stop st).ytPlaying = false ∧
    (localLive (YouTubePlayer.stop st) = true → localLive st = true) := by
  obtain ⟨b1, b2, b3, b4, c5, c6, c7⟩ := h
  unfold YouTubePlayer.stop
  cases hy : st.ytProc with
  | none =>
    have hflag : st.ytPlaying = false := by
      cases hx : st.ytPlaying
      · rfl
      · exact absurd hy (c5 hx)
    exact ⟨⟨b1, b2, b3, b4, c5, c6, c7⟩, hflag, fun hx => hx⟩
  | some q =>
    rw [hy] at b2
    refine ⟨⟨?_, trivial, ?_, ?_, ?_, ?_, ?_⟩, rfl, ?_⟩
    · exact optBound_length_eq _ b1 (by simp [List.length_set])
    · exact optBound_length_eq _ b3 (by simp [List.length_set])
    · exact optBound_length_eq _ b4 (by simp [List.length_set])
    · intro hx
      cases hx
    · intro hx
      cases hx
    · intro hx
      unfold ytLive at hx
      dsimp only at hx
      cases hx
    · exact localLive_set_mono st q

theorem inv_spawnPair (st : Sys) (h : Inv st) (hl : localLive st = false) :
    Inv (YouTubePlayer.spawnPair st) ∧
    localLive (YouTubePlayer.spawnPair st) = false := by
  obtain ⟨b1, b2, b3, b4, c5, c6, c7⟩ := h
  have hll : localLive (YouTubePlayer.spawnPair st) = localLive st :=
    localLive_stable st _ rfl (fun p hp => procAlive_append st [true, true] p hp) b1
  refine ⟨⟨?_, ?_, ?_, ?_, ?_, ?_, ?_⟩, hll.trans hl⟩
  · exact optBound_append _ _ _ b1
  · show optBound (some (st.procs.length + 1)) (st.procs ++ [true, true]).length
    simp only [optBound, List.length_append, List.length_cons, List.length_nil]
    omega
  · show optBound (some st.procs.length) (st.procs ++ [true, true]).length
    simp only [optBound, List.length_append, List.length_cons, List.length_nil]
    omega
  · exact optBound_append _ _ _ b4
  · intro _
    show (some (st.procs.length + 1) : Option Nat) ≠ none
    simp
  · intro _
    exact hll.trans hl
  · intro _
    rfl

theorem inv_yt_play_url (url : String) (st : Sys) (h : Inv st)
    (hl : localLive st = false) :
    Inv (YouTubePlayer.play_youtube_url url st).2 ∧
    localLive (YouTubePlayer.play_youtube_url url st).2 = false := by
  unfold YouTubePlayer.play_youtube_url
  by_cases hv : is_valid_youtube_url url = false
  · rw [if_pos hv]
    exact ⟨h, hl⟩
  · rw [if_neg hv]
    obtain ⟨hi, hflag, hmono⟩ := inv_ytStop st h
    have hl' : localLive (YouTubePlayer.stop st) = false := by
      cases hx : localLive (YouTubePlayer.stop st)
      · rfl
      · rw [hmono hx] at hl
        cases hl
    exact inv_spawnPair _ hi hl'

theorem inv_playlistLoop (vids : List String) :
    ∀ st : Sys, Inv st → Inv (YouTubePlayer.playlistLoop vids st) := by
  induction vids with
  | nil => exact fun st h => h
  | cons v rest ih =>
    intro st h
    unfold YouTubePlayer.playlistLoop
    by_cases hflag : st.ytPlaying = false
    · rw [if_pos hflag]
      exact h
    · rw [if_neg hflag]
      have hyt : st.ytPlaying = true := by
        cases hx : st.ytPlaying
        · exact absurd hx hflag
        · rfl
      have hl : localLive st = false := h.2.2.2.2.2.1 hyt
      exact ih _ (inv_yt_play_url v st h hl).1

theorem inv_yt_play_playlist (env : Env) (url : String) (st : Sys) (h : Inv st) :
    Inv (YouTubePlayer.play_youtube_playlist env url st).2 := by
  unfold YouTubePlayer.play_youtube_playlist
  by_cases hv : is_valid_youtube_playlist_url url = false
  · rw [if_pos hv]
    exact h
  · rw [if_neg hv]
    cases hvv : env.ytVideos url with
    | none => exact h
    | some vids => exact inv_playlistLoop vids st h

theorem inv_search_and_play (env : Env) (q : String) (st : Sys) (h : Inv st)
    (hl : localLive st = false) :
    Inv (YouTubePlayer.search_and_play env q st).2 := by
  unfold YouTubePlayer.search_and_play
  by_cases hh : env.audioHost = true
  · rw [if_pos hh]
    exact h
  · rw [if_neg hh]
    cases hs : env.searchResult q with
    | none => exact h
    | some url => exact (inv_yt_play_url url st h hl).1

theorem inv_applyYtResult (r : Option Bool × Sys) (h : Inv r.2) :
    Inv (AudioPlayer.applyYtResult r).2 := by
  obtain ⟨ob, st⟩ := r
  match ob with
  | some true => exact h
  | some false => exact h
  | none => exact h

theorem inv_play_youtube_url_cmd (url : String) (st : Sys) (h : Inv st) :
    Inv (AudioPlayer.play_youtube_url url st).2 := by
  unfold AudioPlayer.play_youtube_url
  exact inv_applyYtResult _
    (inv_yt_play_url url _ (inv_stop st h).1 (localLive_stop st)).1

theorem inv_play_youtube_search_cmd (env : Env) (q : String) (st : Sys) (h : Inv st) :
    Inv (AudioPlayer.play_youtube_search env q st).2 := by
  unfold AudioPlayer.play_youtube_search
  exact inv_applyYtResult _
    (inv_search_and_play env q _ (inv_stop st h).1 (localLive_stop st))

theorem inv_play_youtube_playlist_cmd (env : Env) (url : String) (st : Sys)
    (h : Inv st) :
    Inv (AudioPlayer.play_youtube_playlist env url st).2 := by
  unfold AudioPlayer.play_youtube_playlist
  exact inv_applyYtResult _ (inv_yt_play_playlist env url _ (inv_stop st h).1)

theorem inv_spawnTts (st : Sys) (t : TTSState) (h : Inv st) :
    Inv { st with tts := t, procs := st.procs ++ [true],
                  ttsProc := some st.procs.length,
                  tasks := st.tasks ++ [Waiter.waitTts st.procs.length] } := by
  obtain ⟨b1, b2, b3, b4, c5, c6, c7⟩ := h
  have hll : localLive
      { st with tts := t, procs := st.procs ++ [true],
                ttsProc := some st.procs.length,
                tasks := st.tasks ++ [Waiter.waitTts st.procs.length] } = localLive st :=
    localLive_stable st _ rfl (fun q hq => procAlive_append st [true] q hq) b1
  have hyy : ytLive
      { st with tts := t, procs := st.procs ++ [true],
                ttsProc := some st.procs.length,
                tasks := st.tasks ++ [Waiter.waitTts st.procs.length] } = ytLive st :=
    ytLive_stable st _ rfl (fun q hq => procAlive_append st [true] q hq) b2
  refine ⟨optBound_append _ _ _ b1, optBound_append _ _ _ b2,
    optBound_append _ _ _ b3, ?_, c5, ?_, ?_⟩
  · show optBound (some st.procs.length) (st.procs ++ [true]).length
    simp only [optBound, List.length_append, List.length_cons, List.length_nil]
    omega
  · intro hx
    rw [hll]
    exact c6 hx
  · intro hx
    rw [hyy] at hx
    exact c7 hx

theorem inv_speak_step (env : Env) (text : String) (voice : Option String)
    (speed : String) (st : Sys) (h : Inv st) :
    Inv (TTSEngine.speak_step env text voice speed st) := by
  unfold TTSEngine.speak_step
  cases hs : speak env.hash env.renderOk text voice speed st.tts with
  | mk r t =>
    cases r with
    | none => exact h
    | some p =>
      dsimp only
      exact inv_spawnTts st t h

theorem inv_procExitNat (st : Sys) (pid : Nat) (h : Inv st) :
    Inv (procExitNat st pid) := by
  obtain ⟨b1, b2, b3, b4, c5, c6, c7⟩ := h
  refine ⟨?_, ?_, ?_, ?_, c5, ?_, ?_⟩
  · exact optBound_length_eq _ b1 (by simp [procExitNat, List.length_set])
  · exact optBound_length_eq _ b2 (by simp [procExitNat, List.length_set])
  · exact optBound_length_eq _ b3 (by simp [procExitNat, List.length_set])
  · exact optBound_length_eq _ b4 (by simp [procExitNat, List.length_set])
  · intro hx
    cases hll : localLive (procExitNat st pid)
    · rfl
    · have hmono := localLive_set_mono st pid hll
      rw [c6 hx] at hmono
      cases hmono
  · intro hx
    exact c7 (ytLive_set_mono st pid hx)

theorem inv_resume_task (env : Env) (st : Sys) (i : Nat) (h : Inv st) :
    Inv (resume_task env st i) := by
  unfold resume_task
  cases hw : st.tasks.get? i with
  | none => exact h
  | some w =>
    cases w with
    | waitLocal pid =>
      dsimp only
      by_cases hg : (removeTask st i).isPlaying = true ∧ (removeTask st i).playlist ≠ []
      · rw [if_pos hg]
        exact inv_handle_song_finished env _ h
      · rw [if_neg hg]
        exact h
    | waitYtDec d f => exact h
    | waitYtFetch f => exact h
    | waitTts pid => exact h

theorem inv_handle_command (env : Env) (c : Cmd) (st : Sys) (h : Inv st) :
    Inv (HC3.handle_command env c st) := by
  unfold HC3.handle_command
  by_cases h1 : c.typ = some "play_music"
  · rw [if_pos h1]
    cases c.song_name with
    | none => exact h
    | some s =>
      dsimp only
      by_cases hs : s ≠ ""
      · rw [if_pos hs]
        exact inv_play_song env s st h
      · rw [if_neg hs]
        exact h
  · rw [if_neg h1]
    by_cases h2 : c.typ = some "stop_music"
    · rw [if_pos h2]
      exact (inv_stop st h).1
    · rw [if_neg h2]
      by_cases h3 : c.typ = some "play_playlist"
      · rw [if_pos h3]
        cases c.playlist_name with
        | none => exact h
        | some s =>
          dsimp only
          by_cases hs : s ≠ ""
          · rw [if_pos hs]
            exact inv_play_playlist env s st h
          · rw [if_neg hs]
            exact h
      · rw [if_neg h3]
        by_cases h4 : c.typ = some "play_youtube_search"
        · rw [if_pos h4]
          cases c.query with
          | none => exact h
          | some s =>
            dsimp only
            by_cases hs : s ≠ ""
            · rw [if_pos hs]
              exact inv_play_youtube_search_cmd env s st h
            · rw [if_neg hs]
              exact h
        · rw [if_neg h4]
          by_cases h5 : c.typ = some "play_youtube_url"
          · rw [if_pos h5]
            cases c.url with
            | none => exact h
            | some s =>
              dsimp only
              by_cases hs : s ≠ ""
              · rw [if_pos hs]
                exact inv_play_youtube_url_cmd s st h
              · rw [if_neg hs]
                exact h
          · rw [if_neg h5]
            by_cases h6 : c.typ = some "play_youtube_playlist"
            · rw [if_pos h6]
              cases c.playlist_url with
              | none => exact h
              | some s =>
                dsimp only
                by_cases hs : s ≠ ""
                · rw [if_pos hs]
                  exact inv_play_youtube_playlist_cmd env s st h
                · rw [if_neg hs]
                  exact h
            · rw [if_neg h6]
              by_cases h7 : c.typ = some "volume"
              · rw [if_pos h7]
                exact h
              · rw [if_neg h7]
                exact h

theorem inv_pause (st : Sys) (h : Inv st) : Inv (AudioPlayer.pause st) := by
  unfold AudioPlayer.pause
  by_cases hc : st.localProc ≠ none ∧ st.isPlaying = true
  · rw [if_pos hc]
    exact h
  · rw [if_neg hc]
    exact h

theorem inv_resume_cmd (st : Sys) (h : Inv st) : Inv (AudioPlayer.resume st) := by
  unfold AudioPlayer.resume
  by_cases hc : st.localProc ≠ none ∧ st.isPlaying = false
  · rw [if_pos hc]
    exact h
  · rw [if_neg hc]
    exact h

theorem inv_init : Inv sysInit := by
  refine ⟨trivial, trivial, trivial, trivial, ?_, ?_, ?_⟩
  · intro hx
    exact absurd hx (by decide)
  · intro hx
    exact absurd hx (by decide)
  · intro hx
    exact absurd hx (by decide)

theorem inv_step (env : Env) (st st' : Sys) (hs : Step env st st') (h : Inv st) :
    Inv st' := by
  cases hs with
  | command c _ => exact inv_handle_command env c st h
  | nextSong _ => exact inv_next_song env st h
  | previousSong _ => exact inv_previous_song env st h
  | pauseCmd _ => exact inv_pause st h
  | resumeCmd _ => exact inv_resume_cmd st h
  | toggleShuffle _ => exact h
  | toggleRepeat _ => exact h
  | ttsSpeak text voice speed _ => exact inv_speak_step env text voice speed st h
  | procExit pid _ hp => exact inv_procExitNat st pid h
  | resumeWaiter i w _ hw hd => exact inv_resume_task env st i h

theorem inv_reachable (env : Env) (st : Sys) (h : Reachable env st) : Inv st := by
  induction h with
  | refl => exact inv_init
  | tail _ hs ih => exact inv_step env _ _ hs ih

/-- **C2, amended.**  Mutual exclusion does hold between the two *music*
players: in every reachable state, at most one of the audio player's and the
YouTube player's tracked playback processes is live (each music `play*` first
performs a full stop of both).  The TTS output process is not subject to this
exclusivity — the counterexample exhibits a reachable state where a music
process and a TTS process are live simultaneously. -/
theorem C2_music_mutual_exclusion (env : Env) (st : Sys) (h : Reachable env st) :
    ¬(localLive st = true ∧ ytLive st = true) := by
  rintro ⟨hl, hy⟩
  have hinv := inv_reachable env st h
  have hyp : st.ytPlaying = true := hinv.2.2.2.2.2.2 hy
  rw [hinv.2.2.2.2.2.1 hyp] at hl
  cases hl

/-- Witness for C2 (amended) at a concrete input: in the reachable state with
the local session live (just after `play_music("a")`), the YouTube session is
not live as well. -/
theorem C2_witness : ¬(localLive c2s1 = true ∧ ytLive c2s1 = true) :=
  C2_music_mutual_exclusion c2env c2s1
    (Relation.ReflTransGen.tail .refl
      (Step.command { typ := some "play_music", song_name := some "a" } sysInit))

/-! ## C7: pause-marker tokenization, general decomposition -/
theorem matchPauseMarker_ne (c : Char) (cs : List Char) (h : c ≠ '<') :
    matchPauseMarker (c :: cs) = none := by
  unfold matchPauseMarker
  split
  · rename_i rest heq
    injection heq with h1 _
    exact absurd h1 h
  · rfl

theorem takeWhile_append_all (p : Char → Bool) (l1 : List Char) (d : Char)
    (l2 : List Char) (h1 : ∀ c ∈ l1, p c = true) (hd : p d = false) :
    (l1 ++ d :: l2).takeWhile p = l1 ∧ (l1 ++ d :: l2).dropWhile p = d :: l2 := by
  induction l1 with
  | nil =>
    simp [List.takeWhile_cons, List.dropWhile_cons, hd]
  | cons x xs ih =>
    have hx : p x = true := h1 x (List.mem_cons_self _ _)
    have ih' := ih (fun c hc => h1 c (List.mem_cons_of_mem _ hc))
    simp [List.takeWhile_cons, List.dropWhile_cons, hx, ih'.1, ih'.2]

theorem digit_not_space (c : Char) (h : isPyDigit c = true) : isPySpace c = false := by
  simp only [isPyDigit, decide_eq_true_eq] at h
  by_contra hx
  have hsp : isPySpace c = true := by
    cases hy : isPySpace c
    · exact absurd hy hx
    · rfl
  simp only [isPySpace, decide_eq_true_eq] at hsp
  rcases hsp with rfl | rfl | rfl | rfl | rfl | rfl <;> revert h <;> decide

theorem matchPauseMarker_cons_eq (rest : List Char) :
    matchPauseMarker ('<' :: 'p' :: 'a' :: 'u' :: 's' :: 'e' :: rest) =
      (let ws := rest.takeWhile isPySpace
       let rest1 := rest.dropWhile isPySpace
       if ws.isEmpty then none
       else
         let ds := rest1.takeWhile isPyDigit
         let rest2 := rest1.dropWhile isPyDigit
         if ds.isEmpty then none
         else
           match rest2 with
           | '>' :: rest3 =>
             some ('<' :: 'p' :: 'a' :: 'u' :: 's' :: 'e' :: (ws ++ ds ++ ['>']),
               digitsVal ds, rest3)
           | _ => none) := rfl

theorem matchPauseMarker_boundary (w0 : Char) (wtl : List Char) (d0 : Char)
    (dtl b : List Char)
    (hws2 : ∀ c ∈ w0 :: wtl, isPySpace c = true)
    (hds2 : ∀ c ∈ d0 :: dtl, isPyDigit c = true) :
    matchPauseMarker
        ('<' :: 'p' :: 'a' :: 'u' :: 's' :: 'e' ::
          ((w0 :: wtl) ++ (d0 :: dtl) ++ '>' :: b)) =
      some ('<' :: 'p' :: 'a' :: 'u' :: 's' :: 'e' ::
        ((w0 :: wtl) ++ (d0 :: dtl) ++ ['>']), digitsVal (d0 :: dtl), b) := by
  have hd0 : isPyDigit d0 = true := hds2 d0 (List.mem_cons_self _ _)
  have hrest : (w0 :: wtl) ++ (d0 :: dtl) ++ '>' :: b =
      (w0 :: wtl) ++ d0 :: (dtl ++ '>' :: b) := by simp
  have hspan := takeWhile_append_all isPySpace (w0 :: wtl) d0 (dtl ++ '>' :: b)
    hws2 (digit_not_space d0 hd0)
  have hspan2 := takeWhile_append_all isPyDigit (d0 :: dtl) '>' b hds2 (by decide)
  rw [hrest, matchPauseMarker_cons_eq]
  dsimp only
  rw [hspan.1, hspan.2]
  simp only [List.isEmpty_cons, Bool.false_eq_true, if_false]
  have hshape : d0 :: (dtl ++ '>' :: b) = (d0 :: dtl) ++ '>' :: b := rfl
  rw [hshape, hspan2.1, hspan2.2]
  simp only [List.isEmpty_cons, Bool.false_eq_true, if_false]

theorem reSplitPause_skip (a : List Char) :
    ∀ (fuel : Nat) (acc rest : List Char), (∀ c ∈ a, c ≠ '<') → a.length < fuel →
    reSplitPause fuel acc (a ++ rest) =
      reSplitPause (fuel - a.length) (a.reverse ++ acc) rest := by
  induction a with
  | nil =>
    intro fuel acc rest _ _
    simp
  | cons x xs ih =>
    intro fuel acc rest ha hfuel
    cases fuel with
    | zero => omega
    | succ f =>
      have hx : x ≠ '<' := ha x (List.mem_cons_self _ _)
      show reSplitPause (f + 1) acc (x :: (xs ++ rest)) = _
      simp only [reSplitPause]
      rw [matchPauseMarker_ne x _ hx]
      rw [ih f (x :: acc) rest (fun c hc => ha c (List.mem_cons_of_mem _ hc))
        (by simp at hfuel; omega)]
      simp only [List.length_cons, Nat.succ_sub_succ, List.reverse_cons,
        List.append_assoc, List.singleton_append]

theorem reSplitPause_last (b : List Char) :
    ∀ (fuel : Nat) (acc : List Char), (∀ c ∈ b, c ≠ '<') → b.length < fuel →
    reSplitPause fuel acc b = [acc.reverse ++ b] := by
  induction b with
  | nil =>
    intro fuel acc _ hf
    cases fuel with
    | zero => omega
    | succ f => simp [reSplitPause]
  | cons x xs ih =>
    intro fuel acc ha hf
    cases fuel with
    | zero => omega
    | succ f =>
      show reSplitPause (f + 1) acc (x :: xs) = _
      simp only [reSplitPause]
      rw [matchPauseMarker_ne x _ (ha x (List.mem_cons_self _ _))]
      rw [ih f (x :: acc) (fun c hc => ha c (List.mem_cons_of_mem _ hc))
        (by simp at hf; omega)]
      simp

theorem mem_pyStrip (l : List Char) (c : Char) (h : c ∈ pyStrip l) : c ∈ l := by
  unfold pyStrip at h
  rw [List.mem_reverse] at h
  have h2 : c ∈ (l.dropWhile isPySpace).reverse :=
    (List.dropWhile_sublist _).subset h
  rw [List.mem_reverse] at h2
  exact (List.dropWhile_sublist _).subset h2

theorem pyStrip_angle (mid : List Char) :
    pyStrip ('<' :: (mid ++ ['>'])) = '<' :: (mid ++ ['>']) := by
  unfold pyStrip
  rw [List.dropWhile_cons]
  simp only [show isPySpace '<' = false by decide, Bool.false_eq_true, if_false]
  have h1 : ('<' :: (mid ++ ['>'])).reverse = '>' :: (mid.reverse ++ ['<']) := by simp
  rw [h1, List.dropWhile_cons]
  simp only [show isPySpace '>' = false by decide, Bool.false_eq_true, if_false]
  rw [← h1, List.reverse_reverse]

theorem processParts_text_head (part : List Char) (rest : List (List Char))
    (hne : pyStrip part ≠ []) (ha : ∀ c ∈ part, c ≠ '<') :
    processParts (part :: rest) =
      TTSToken.text (String.mk (pyStrip part)) :: processParts rest := by
  obtain ⟨h0, t0, hp⟩ : ∃ h0 t0, pyStrip part = h0 :: t0 := by
    cases hp : pyStrip part with
    | nil => exact absurd hp hne
    | cons x xs => exact ⟨x, xs, rfl⟩
  have hh0 : h0 ≠ '<' :=
    ha h0 (mem_pyStrip part h0 (hp ▸ List.mem_cons_self _ _))
  simp only [processParts]
  rw [hp]
  simp only [List.isEmpty_cons, Bool.false_eq_true, if_false]
  split
  · rename_i heq
    injection heq with hc _
    exact absurd hc hh0
  · rfl

theorem processParts_marker_head (w0 d0 : Char) (wtl dtl : List Char)
    (rest : List (List Char))
    (hws2 : ∀ c ∈ w0 :: wtl, isPySpace c = true)
    (hds2 : ∀ c ∈ d0 :: dtl, isPyDigit c = true) :
    processParts
        (('<' :: 'p' :: 'a' :: 'u' :: 's' :: 'e' ::
          ((w0 :: wtl) ++ (d0 :: dtl) ++ ['>'])) :: rest) =
      TTSToken.pause (digitsVal (d0 :: dtl)) :: processParts rest := by
  have hshape : '<' :: 'p' :: 'a' :: 'u' :: 's' :: 'e' ::
      ((w0 :: wtl) ++ (d0 :: dtl) ++ ['>']) =
      '<' :: (('p' :: 'a' :: 'u' :: 's' :: 'e' :: ((w0 :: wtl) ++ (d0 :: dtl))) ++ ['>']) := by
    simp
  have hstrip : pyStrip ('<' :: 'p' :: 'a' :: 'u' :: 's' :: 'e' ::
      ((w0 :: wtl) ++ (d0 :: dtl) ++ ['>'])) =
      '<' :: 'p' :: 'a' :: 'u' :: 's' :: 'e' ::
        ((w0 :: wtl) ++ (d0 :: dtl) ++ ['>']) := by
    rw [hshape, pyStrip_angle]
  have hmatch := matchPauseMarker_boundary w0 wtl d0 dtl [] hws2 hds2
  simp only [processParts]
  rw [hstrip]
  simp only [List.isEmpty_cons, Bool.false_eq_true, if_false]
  have hb : (w0 :: wtl) ++ (d0 :: dtl) ++ '>' :: ([] : List Char) =
      (w0 :: wtl) ++ (d0 :: dtl) ++ ['>'] := rfl
  rw [hb] at hmatch
  rw [hmatch]

theorem reSplitPause_cons_eq (fuel : Nat) (acc : List Char) (c : Char)
    (cs : List Char) :
    reSplitPause (fuel + 1) acc (c :: cs) =
      match matchPauseMarker (c :: cs) with
      | some (marker, _, rest) => acc.reverse :: marker :: reSplitPause fuel [] rest
      | none => reSplitPause fuel (c :: acc) cs := rfl

theorem splitTextWithPauseL_marker (a b ws ds : List Char)
    (ha : ∀ c ∈ a, c ≠ '<') (hb : ∀ c ∈ b, c ≠ '<')
    (hws : ws ≠ []) (hws2 : ∀ c ∈ ws, isPySpace c = true)
    (hds : ds ≠ []) (hds2 : ∀ c ∈ ds, isPyDigit c = true)
    (hA : pyStrip a ≠ []) (hB : pyStrip b ≠ []) :
    splitTextWithPauseL
        (a ++ '<' :: 'p' :: 'a' :: 'u' :: 's' :: 'e' :: (ws ++ ds ++ '>' :: b)) =
      [TTSToken.text (String.mk (pyStrip a)), TTSToken.pause (digitsVal ds),
        TTSToken.text (String.mk (pyStrip b))] := by
  obtain ⟨w0, wtl, rfl⟩ : ∃ w0 wtl, ws = w0 :: wtl := by
    cases ws with
    | nil => exact absurd rfl hws
    | cons x xs => exact ⟨x, xs, rfl⟩
  obtain ⟨d0, dtl, rfl⟩ : ∃ d0 dtl, ds = d0 :: dtl := by
    cases ds with
    | nil => exact absurd rfl hds
    | cons x xs => exact ⟨x, xs, rfl⟩
  unfold splitTextWithPauseL
  rw [reSplitPause_skip a _ []
    ('<' :: 'p' :: 'a' :: 'u' :: 's' :: 'e' :: ((w0 :: wtl) ++ (d0 :: dtl) ++ '>' :: b))
    ha (by simp [List.length_append]; omega)]
  have hflen : (a ++ '<' :: 'p' :: 'a' :: 'u' :: 's' :: 'e' ::
        ((w0 :: wtl) ++ (d0 :: dtl) ++ '>' :: b)).length + 1 - a.length =
      ('<' :: 'p' :: 'a' :: 'u' :: 's' :: 'e' ::
        ((w0 :: wtl) ++ (d0 :: dtl) ++ '>' :: b)).length + 1 := by
    simp only [List.length_append]
    omega
  rw [hflen]
  rw [reSplitPause_cons_eq]
  rw [matchPauseMarker_boundary w0 wtl d0 dtl b hws2 hds2]
  dsimp only
  rw [reSplitPause_last b _ [] hb (by simp [List.length_append]; omega)]
  simp only [List.append_nil, List.reverse_reverse, List.reverse_nil, List.nil_append]
  rw [processParts_text_head a _ hA ha]
  rw [processParts_marker_head w0 d0 wtl dtl _ hws2 hds2]
  rw [processParts_text_head b _ hB hb]
  simp [processParts]

/-- **C7.**  The pause-marker tokenizer splits its input on markers of the
form `<pause N>` into text-segment and `(pause, N)` tokens in original order:
for any text `a`, marker (whitespace `ws`, digits `ds`) and text `b` (the
texts free of `'<'` and non-blank), the input `a ++ "<pause" ++ ws ++ ds ++
">" ++ b` decomposes into `[text (strip a), pause (value ds), text (strip
b)]`; in particular `"Hello. <pause 500> World."` decomposes into exactly
`[text "Hello.", pause 500, text "World."]`. -/
theorem C7_pause_tokenizer_decomposition :
    (∀ a b ws ds : List Char,
      (∀ c ∈ a, c ≠ '<') → (∀ c ∈ b, c ≠ '<') →
      ws ≠ [] → (∀ c ∈ ws, isPySpace c = true) →
      ds ≠ [] → (∀ c ∈ ds, isPyDigit c = true) →
      pyStrip a ≠ [] → pyStrip b ≠ [] →
      splitTextWithPauseL
          (a ++ '<' :: 'p' :: 'a' :: 'u' :: 's' :: 'e' :: (ws ++ ds ++ '>' :: b)) =
        [TTSToken.text (String.mk (pyStrip a)), TTSToken.pause (digitsVal ds),
          TTSToken.text (String.mk (pyStrip b))]) ∧
    split_text_with_pause "Hello. <pause 500> World." =
      [TTSToken.text "Hello.", TTSToken.pause 500, TTSToken.text "World."] :=
  ⟨fun a b ws ds ha hb hws hws2 hds hds2 hA hB =>
      splitTextWithPauseL_marker a b ws ds ha hb hws hws2 hds hds2 hA hB,
    by decide⟩

/-- Witness for C7 at a concrete input: `"Hi. <pause 42> Bye"` decomposes
into `[text "Hi.", pause 42, text "Bye"]` by the general part of the
theorem. -/
theorem C7_witness :
    splitTextWithPauseL
        ("Hi. ".data ++ '<' :: 'p' :: 'a' :: 'u' :: 's' :: 'e' ::
          (" ".data ++ "42".data ++ '>' :: " Bye".data)) =
      [TTSToken.text "Hi.", TTSToken.pause 42, TTSToken.text "Bye"] := by
  have h := C7_pause_tokenizer_decomposition.1 "Hi. ".data " Bye".data
    " ".data "42".data (by decide) (by decide) (by decide) (by decide)
    (by decide) (by decide) (by decide) (by decide)
  exact h.trans (by decide)

end MediaCenter
